import Mathlib

/-!
# GitLab MR Manager: the client-side behaviour layer of `static/js/app.js`

A shallow embedding of the filter / search engine, the persistence cache, the
notification presenter, the action dispatcher and the debounce utility, followed by
the theorems that settle the claims made about them.

Conventions of the embedding

* A JavaScript string is a Lean `String` (well-formed text, on which the substring
  relation of code units and of characters agree); `undefined` and `null` results of
  DOM look-ups are `none`.
* A function that can throw returns the state it reached together with the exception it
  raised (`Page × Option JsError`, `Ui × Option JsError`): effects made before a throw
  stay in place, exactly as in the browser.
* Built-ins whose definition is not part of the repository (`toLowerCase`, `JSON.parse`,
  `JSON.stringify`, the HTML parser behind `innerHTML`) are fields of a `Runtime` record
  that every function using them takes as an argument.
-/

namespace MrManager

/-! ## Strings -/

/-- Whether the second list is an initial segment of the first. -/
def startsWith : List Char → List Char → Bool
  | _, [] => true
  | [], _ :: _ => false
  | c :: s, d :: q => c == d && startsWith s q

/-- Left-to-right scan behind `String.prototype.includes`: some position of the first list
starts with the second list. -/
def includesChars : List Char → List Char → Bool
  | [], q => startsWith [] q
  | c :: s, q => startsWith (c :: s) q || includesChars s q

/-- `s.includes(q)`. -/
def includes (s q : String) : Bool := includesChars s.data q.data

/-- The spec-side reading of "q is a substring of s": the characters of `q` occur
contiguously in `s`. -/
def IsSubstring (q s : String) : Prop := q.data <:+: s.data

/-! ## Exceptions and the runtime -/

/-- The two exception classes the embedded code can raise. -/
inductive JsError where
  | typeError
  | syntaxError
deriving DecidableEq

/-- A plain object whose property values are strings, as built by `getActiveFilters`:
own properties in insertion order. -/
abbrev Obj := List (String × String)

/-- What `loadCachedFilters` observes of `JSON.parse(cached)`: the parse throws, or it
yields `null` (on which `Object.entries` throws), or it yields a value with the listed
own enumerable entries, each value in the form the assignment `select.value = value`
stores it. -/
inductive Parsed where
  | syntaxError
  | nullValue
  | entries (kvs : List (String × String))
deriving DecidableEq

/-- Built-ins of the JavaScript runtime and of the browser used by the embedded functions.
`inheritedText name` is the text a template literal renders the member
`Object.prototype[name]` to, `hasCloseButton markup` tells whether an element whose
`innerHTML` is set to `markup` has a descendant of class `notification-close`, and
`errorMessage e` is the `message` of the exception `e`. -/
structure Runtime where
  toLowerCase : String → String
  jsonStringify : Obj → String
  jsonParse : String → Parsed
  inheritedText : String → String
  hasCloseButton : String → Bool
  errorMessage : JsError → String

/-! ## Plain objects -/

/-- Own-property read `o[k]`; `none` is `undefined`. -/
def Obj.get : Obj → String → Option String
  | [], _ => none
  | (k', v) :: rest, k => if k' = k then some v else Obj.get rest k

/-- Own-property write: replaces the value of an existing key, appends a new key. -/
def Obj.set : Obj → String → String → Obj
  | [], k, v => [(k, v)]
  | (k', v') :: rest, k, v =>
    if k' = k then (k, v) :: rest else (k', v') :: Obj.set rest k v

/-- The assignment `o[k] = v` for a string `v` on an object whose prototype is
`Object.prototype`: the name `__proto__` reaches the inherited setter, which ignores
a string, every other name writes an own property. -/
def Obj.assign (o : Obj) (k v : String) : Obj :=
  if k = "__proto__" then o else o.set k v

/-! ## The page -/

/-- A `select.filter-select` control. -/
structure Select where
  name : String
  options : List String
  value : String
deriving DecidableEq

/-- The setter `select.value = v`: the option with that value becomes the selected one;
when there is none, no option stays selected and the value reads as the empty string. -/
def Select.assign (s : Select) (v : String) : Select :=
  if v ∈ s.options then { s with value := v } else { s with value := "" }

/-- A rendered `.mr-item` row. `title` and `author` are the `textContent` of the
`.mr-title` and `.mr-author` descendants (`none` when `querySelector` returns `null`),
`labels` the `textContent` of the `.label` descendants, `status` is `dataset.status`
(`none` when the attribute is missing) and `style` is the inline style of the row: its
declarations, property and value, in the order of the declaration block. -/
structure Item where
  title : Option String
  author : Option String
  labels : List String
  status : Option String
  style : Obj
deriving DecidableEq

/-- The getter `item.style.display`: the value of the inline `display` declaration, the
empty string when there is none. -/
def Item.display (item : Item) : String := (item.style.get "display").getD ""

/-- The assignment `item.style.display = value` for one of the keywords `block` and
`none`: an existing `display` declaration takes the value in place, otherwise the
declaration is appended to the block. -/
def Item.setDisplay (item : Item) (value : String) : Item :=
  { item with style := item.style.set "display" value }

/-- The state the filter engine and the persistence cache read and write. `emptyState`
is `style.display` of the `.empty-state` element (`none` when the page has none),
`storage` is `localStorage.getItem('mr-filters')` (`none` for `null`), and `filterRuns`
counts the entries into `applyFilters`. -/
structure Page where
  selects : List Select
  items : List Item
  emptyState : Option String
  storage : Option String
  filterRuns : Nat
deriving DecidableEq

/-- The guard `v && v !== 'all'`. -/
def isActive (v : String) : Bool := v ≠ "" && v ≠ "all"

/-- Body of the `forEach` in `getActiveFilters`. -/
def getActiveFiltersStep (filters : Obj) (select : Select) : Obj :=
  if isActive select.value then filters.assign select.name select.value else filters

/-- `getActiveFilters()`. -/
def getActiveFilters (selects : List Select) : Obj :=
  selects.foldl getActiveFiltersStep []

/-- `Array.prototype.forEach` over the rows with a callback that may throw: rows are
visited in order, a throw leaves the remaining rows untouched. -/
def forEachItem (f : Item → Except JsError Item) : List Item → List Item × Option JsError
  | [] => ([], none)
  | item :: rest =>
    match f item with
    | .error e => (item :: rest, some e)
    | .ok item' => ((item' :: (forEachItem f rest).1), (forEachItem f rest).2)

/-- The label block of `applyFilters`. -/
def applyLabelFilter (filters : Obj) (item : Item) (shouldShow : Bool) : Bool :=
  match filters.get "label" with
  | some label =>
    if isActive label then (if label ∈ item.labels then shouldShow else false)
    else shouldShow
  | none => shouldShow

/-- The status block of `applyFilters`. -/
def applyStatusFilter (filters : Obj) (item : Item) (shouldShow : Bool) : Bool :=
  match filters.get "status" with
  | some status =>
    if isActive status then (if item.status ≠ some status then false else shouldShow)
    else shouldShow
  | none => shouldShow

/-- The author block of `applyFilters`; reading `textContent` of a missing `.mr-author`
element throws. -/
def applyAuthorFilter (filters : Obj) (item : Item) (shouldShow : Bool) :
    Except JsError Bool :=
  match filters.get "author" with
  | some wanted =>
    if isActive wanted then
      match item.author with
      | none => .error .typeError
      | some author => .ok (if author ≠ wanted then false else shouldShow)
    else .ok shouldShow
  | none => .ok shouldShow

/-- The callback of the `forEach` in `applyFilters`. -/
def filterItem (filters : Obj) (item : Item) : Except JsError Item :=
  match applyAuthorFilter filters item
      (applyStatusFilter filters item (applyLabelFilter filters item true)) with
  | .error e => .error e
  | .ok shouldShow => .ok (item.setDisplay (if shouldShow then "block" else "none"))

/-- The text of one declaration in the serialisation of a declaration block. -/
def declarationText (d : String × String) : String := d.1 ++ ": " ++ d.2 ++ ";"

/-- The text of a row's `style` attribute: the serialisation of its declaration block,
the declarations separated by one space. -/
def styleAttr (item : Item) : String :=
  " ".intercalate (item.style.map declarationText)

/-- Membership in `.mr-item[style*="block"], .mr-item:not([style*="none"])`. -/
def matchesVisibleSelector (item : Item) : Bool :=
  includes (styleAttr item) "block" || !includes (styleAttr item) "none"

/-- `updateEmptyState()`. -/
def updateEmptyState (p : Page) : Page :=
  match p.emptyState with
  | none => p
  | some _ =>
    if (p.items.filter matchesVisibleSelector).length = 0 then
      { p with emptyState := some "block" }
    else { p with emptyState := some "none" }

/-- `cacheFilters(filters)`. -/
def cacheFilters (rt : Runtime) (filters : Obj) (p : Page) : Page :=
  { p with storage := some (rt.jsonStringify filters) }

/-- `applyFilters()`. -/
def applyFilters (rt : Runtime) (p : Page) : Page × Option JsError :=
  let filters := getActiveFilters p.selects
  let looped := forEachItem (filterItem filters) p.items
  let p1 : Page := { p with items := looped.1, filterRuns := p.filterRuns + 1 }
  match looped.2 with
  | some e => (p1, some e)
  | none => (cacheFilters rt filters (updateEmptyState p1), none)

/-- The callback of the `forEach` in `performSearch`. `query` is `none` when the argument
is `undefined`, on which `query.toLowerCase()` throws. -/
def searchItem (rt : Runtime) (query : Option String) (item : Item) : Except JsError Item :=
  match item.title with
  | none => .error .typeError
  | some titleText =>
    match item.author with
    | none => .error .typeError
    | some authorText =>
      match query with
      | none => .error .typeError
      | some q =>
        let title := rt.toLowerCase titleText
        let author := rt.toLowerCase authorText
        let labels := item.labels.map rt.toLowerCase
        let isMatch := includes title (rt.toLowerCase q) ||
          includes author (rt.toLowerCase q) ||
          labels.any (fun label => includes label (rt.toLowerCase q))
        .ok (item.setDisplay (if isMatch then "block" else "none"))

/-- `performSearch(query)`. -/
def performSearch (rt : Runtime) (query : Option String) (p : Page) : Page × Option JsError :=
  let looped := forEachItem (searchItem rt query) p.items
  let p1 : Page := { p with items := looped.1 }
  match looped.2 with
  | some e => (p1, some e)
  | none => (updateEmptyState p1, none)

/-! ## Persistence cache -/

/-- The first `select` whose `name` attribute is the given one receives the value; the
page is unchanged when `querySelector` finds none. The attribute selector is built by
interpolating the name between double quotes, so the look-up is by name for every name
without a double quote or a backslash, and every `select` with a name is one of the
filter selects. -/
def restoreSelect : List Select → String → String → List Select
  | [], _, _ => []
  | s :: rest, name, value =>
    if s.name = name then s.assign value :: rest else s :: restoreSelect rest name value

/-- The callback of the `forEach` over `Object.entries(filters)`. -/
def restoreStep (selects : List Select) (entry : String × String) : List Select :=
  restoreSelect selects entry.1 entry.2

/-- `loadCachedFilters()`. -/
def loadCachedFilters (rt : Runtime) (p : Page) : Page × Option JsError :=
  match p.storage with
  | none => (p, none)
  | some cached =>
    if cached = "" then (p, none)
    else
      match rt.jsonParse cached with
      | .syntaxError => (p, some .syntaxError)
      | .nullValue => (p, some .typeError)
      | .entries kvs => applyFilters rt { p with selects := kvs.foldl restoreStep p.selects }

/-! ## Notification presenter -/

/-- The value of `table[type] || fallback` for an object literal `table`: a string, or a
member inherited from `Object.prototype`. -/
inductive PropValue where
  | str (s : String)
  | inherited (name : String)
deriving DecidableEq

/-- The property names every object literal inherits from `Object.prototype`; each of
them reads as a function or an object, hence as a truthy value. -/
def objectPrototypeNames : List String :=
  ["constructor", "hasOwnProperty", "isPrototypeOf", "propertyIsEnumerable",
   "toLocaleString", "toString", "valueOf", "__proto__", "__defineGetter__",
   "__defineSetter__", "__lookupGetter__", "__lookupSetter__"]

/-- The expression `table[type] || fallback`. -/
def lookupOr (table : Obj) (type fallback : String) : PropValue :=
  match table.get type with
  | some v => if v = "" then .str fallback else .str v
  | none => if type ∈ objectPrototypeNames then .inherited type else .str fallback

/-- `getNotificationIcon(type)`. -/
def getNotificationIcon (type : String) : PropValue :=
  lookupOr [("success", "check-circle"), ("error", "exclamation-circle"),
    ("warning", "exclamation-triangle"), ("info", "info-circle")] type "info-circle"

/-- `getNotificationColor(type)`. -/
def getNotificationColor (type : String) : PropValue :=
  lookupOr [("success", "#10b981"), ("error", "#ef4444"),
    ("warning", "#f59e0b"), ("info", "#3b82f6")] type "#3b82f6"

/-- A toast appended to the document body. -/
structure Notification where
  message : String
  type : String
  icon : PropValue
  color : PropValue
deriving DecidableEq

/-- What a `setTimeout` callback of the presenter or the dispatcher does. -/
inductive TimerTask where
  | removeNotification (index : Nat)
  | reload
deriving DecidableEq

/-- The notifications created so far and the timers scheduled so far (delay in
milliseconds and task), both in order of creation. -/
structure Ui where
  notifications : List Notification
  timers : List (Nat × TimerTask)
deriving DecidableEq

/-- The text a template literal renders the result of `table[type] || fallback` to. -/
def PropValue.text (rt : Runtime) : PropValue → String
  | .str s => s
  | .inherited name => rt.inheritedText name

/-- The template literal assigned to `notification.innerHTML`: message and icon are
interpolated as they are, without escaping. -/
def notificationMarkup (rt : Runtime) (message type : String) : String :=
  "\n        <div class=\"notification-content\">\n            <i class=\"fas fa-" ++
  (getNotificationIcon type).text rt ++
  "\"></i>\n            <span>" ++ message ++
  "</span>\n        </div>\n        <button class=\"notification-close\">&times;</button>\n    "

/-- `showNotification(message, type)`: the element is appended to the body, its removal
is scheduled after five seconds, and the click handler is attached to the result of
`notification.querySelector('.notification-close')`, which throws a `TypeError` when
the parsed markup has no such element. -/
def showNotification (rt : Runtime) (message type : String) (ui : Ui) : Ui × Option JsError :=
  let shown : Ui :=
    { notifications := ui.notifications ++
        [{ message := message, type := type, icon := getNotificationIcon type,
           color := getNotificationColor type }],
      timers := ui.timers ++ [(5000, TimerTask.removeNotification ui.notifications.length)] }
  if rt.hasCloseButton (notificationMarkup rt message type) then (shown, none)
  else (shown, some JsError.typeError)

/-! ## Action dispatcher -/

/-- How the promise chain of an action settles. `data`: the second `then` runs with the
parsed body, `success` being the truthiness of `data.success` and `message` the text
the template literal renders `data.message` to. `rejected`: the chain reaches `catch`
before that callback runs, with an error whose `message` is the given text. -/
inductive FetchResult where
  | data (success : Bool) (message : String)
  | rejected (message : String)

/-- `approveMR(mrId)`, with the answer of the confirmation dialog and the way the request
settles. An exception of the in-progress notification leaves the function before the
request is made; an exception inside the `then` callback rejects the chain and reaches
the `catch` callback; an exception of the `catch` callback is the outcome of the
chain. -/
def approveMR (rt : Runtime) (mrId : String) (confirmed : Bool) (result : FetchResult)
    (ui : Ui) : Ui × Option JsError :=
  if confirmed then
    match showNotification rt ("Approving MR #" ++ mrId ++ "...") "info" ui with
    | (ui, some e) => (ui, some e)
    | (ui, none) =>
      match result with
      | .data success message =>
        match (if success then
            match showNotification rt ("MR #" ++ mrId ++ " approved successfully!") "success" ui with
            | (ui, some e) => (ui, some e)
            | (ui, none) => ({ ui with timers := ui.timers ++ [(1000, TimerTask.reload)] }, none)
          else showNotification rt ("Error: " ++ message) "error" ui) with
        | (ui, some e) =>
          showNotification rt ("Error approving MR: " ++ rt.errorMessage e) "error" ui
        | (ui, none) => (ui, none)
      | .rejected message => showNotification rt ("Error approving MR: " ++ message) "error" ui
  else (ui, none)

/-- `mergeMR(mrId)`. -/
def mergeMR (rt : Runtime) (mrId : String) (confirmed : Bool) (result : FetchResult)
    (ui : Ui) : Ui × Option JsError :=
  if confirmed then
    match showNotification rt ("Merging MR #" ++ mrId ++ "...") "info" ui with
    | (ui, some e) => (ui, some e)
    | (ui, none) =>
      match result with
      | .data success message =>
        match (if success then
            match showNotification rt ("MR #" ++ mrId ++ " merged successfully!") "success" ui with
            | (ui, some e) => (ui, some e)
            | (ui, none) => ({ ui with timers := ui.timers ++ [(1000, TimerTask.reload)] }, none)
          else showNotification rt ("Error: " ++ message) "error" ui) with
        | (ui, some e) =>
          showNotification rt ("Error merging MR: " ++ rt.errorMessage e) "error" ui
        | (ui, none) => (ui, none)
      | .rejected message => showNotification rt ("Error merging MR: " ++ message) "error" ui
  else (ui, none)

/-- `closeMR(mrId)`. -/
def closeMR (rt : Runtime) (mrId : String) (confirmed : Bool) (result : FetchResult)
    (ui : Ui) : Ui × Option JsError :=
  if confirmed then
    match showNotification rt ("Closing MR #" ++ mrId ++ "...") "info" ui with
    | (ui, some e) => (ui, some e)
    | (ui, none) =>
      match result with
      | .data success message =>
        match (if success then
            match showNotification rt ("MR #" ++ mrId ++ " closed successfully!") "success" ui with
            | (ui, some e) => (ui, some e)
            | (ui, none) => ({ ui with timers := ui.timers ++ [(1000, TimerTask.reload)] }, none)
          else showNotification rt ("Error: " ++ message) "error" ui) with
        | (ui, some e) =>
          showNotification rt ("Error closing MR: " ++ rt.errorMessage e) "error" ui
        | (ui, none) => (ui, none)
      | .rejected message => showNotification rt ("Error closing MR: " ++ message) "error" ui
  else (ui, none)

/-! ## Specification-side predicates -/

/-- A row's own data, apart from its visibility. -/
def SameRow (item item' : Item) : Prop := item' = item.setDisplay item'.display

/-- The search criterion in the words of the specification. -/
def SearchHit (rt : Runtime) (q : String) (item : Item) : Prop :=
  q = "" ∨
  (∃ t, item.title = some t ∧ IsSubstring (rt.toLowerCase q) (rt.toLowerCase t)) ∨
  (∃ a, item.author = some a ∧ IsSubstring (rt.toLowerCase q) (rt.toLowerCase a)) ∨
  (∃ l ∈ item.labels, IsSubstring (rt.toLowerCase q) (rt.toLowerCase l))

/-- The boolean `matches` computed by `performSearch` for a row with title and author. -/
def searchMatch (rt : Runtime) (q : String) (item : Item) : Bool :=
  includes (rt.toLowerCase (item.title.getD "")) (rt.toLowerCase q) ||
  includes (rt.toLowerCase (item.author.getD "")) (rt.toLowerCase q) ||
  (item.labels.map rt.toLowerCase).any (fun label => includes label (rt.toLowerCase q))

/-- Whether a row satisfies the criterion `value` for the filter `name`: the label
criterion is one of the row's label texts, the status criterion equals `data-status`,
the author criterion equals the author text. -/
def Satisfies (item : Item) (name value : String) : Prop :=
  (name = "label" → value ∈ item.labels) ∧
  (name = "status" → item.status = some value) ∧
  (name = "author" → item.author = some value)

/-- The row satisfies every criterion whose value is neither empty nor `all`. -/
def MeetsActive (selects : List Select) (item : Item) : Prop :=
  ∀ s ∈ selects, isActive s.value = true → Satisfies item s.name s.value

/-- The row satisfies every criterion whose value is not `all`. -/
def MeetsNotAll (selects : List Select) (item : Item) : Prop :=
  ∀ s ∈ selects, s.value ≠ "all" → Satisfies item s.name s.value

/-- The value of the last select named `k` that holds an active value. -/
def lastActive : List Select → String → Option String
  | [], _ => none
  | s :: rest, k =>
    match lastActive rest k with
    | some v => some v
    | none => if s.name = k ∧ isActive s.value = true then some s.value else none

/-- One block of `applyFilters` as a test on the criterion stored under `k`. -/
def keyPass (filters : Obj) (k : String) (test : String → Bool) : Bool :=
  match filters.get k with
  | some v => !isActive v || test v
  | none => true

/-- The final `shouldShow` of `applyFilters` for a row that has an author element. -/
def shouldShowOf (filters : Obj) (item : Item) : Bool :=
  keyPass filters "label" (fun v => decide (v ∈ item.labels)) &&
  keyPass filters "status" (fun v => decide (item.status = some v)) &&
  keyPass filters "author" (fun v => decide (item.author = some v))

/-- The direct run of `applyFilters` on a given criteria object: the body of
`applyFilters` with `filters` bound to the argument. -/
def applyFiltersWith (rt : Runtime) (filters : Obj) (p : Page) : Page × Option JsError :=
  let looped := forEachItem (filterItem filters) p.items
  let p1 : Page := { p with items := looped.1, filterRuns := p.filterRuns + 1 }
  match looped.2 with
  | some e => (p1, some e)
  | none => (cacheFilters rt filters (updateEmptyState p1), none)

/-- `cacheFilters(criteria)` followed by `loadCachedFilters()`. -/
def cacheThenLoad (rt : Runtime) (criteria : Obj) (p : Page) : Page × Option JsError :=
  loadCachedFilters rt (cacheFilters rt criteria p)

/-- The filter names of the data model. -/
def filterKeys : List String := ["label", "status", "author"]

/-- What the restoring loop of `loadCachedFilters` does to one select when the selects
have distinct names and the entries distinct keys. -/
def restoreOne (entries : Obj) (s : Select) : Select :=
  match entries.get s.name with
  | some v => s.assign v
  | none => s

/-- The inline style of the row holds no declaration other than `display`. -/
def PlainStyle (item : Item) : Prop :=
  item.style = [] ∨ item.style = [("display", item.display)]

instance (item : Item) : Decidable (PlainStyle item) := by
  unfold PlainStyle
  infer_instance

/-! ## Reading the effects of an action -/

/-- The notifications created between two states of the interface. -/
def shownBy (before after : Ui) : List Notification :=
  after.notifications.drop before.notifications.length

/-- The timers scheduled between two states of the interface. -/
def scheduledBy (before after : Ui) : List (Nat × TimerTask) :=
  after.timers.drop before.timers.length

/-- The notifications of one kind. -/
def ofKind (kind : String) (ns : List Notification) : List Notification :=
  ns.filter (fun n => decide (n.type = kind))

/-- The timers that reload the page. -/
def reloads (ts : List (Nat × TimerTask)) : List (Nat × TimerTask) :=
  ts.filter (fun t => decide (t.2 = TimerTask.reload))

/-- The markup of a notification with this message and kind keeps the close button. -/
def KeepsButton (rt : Runtime) (message type : String) : Prop :=
  rt.hasCloseButton (notificationMarkup rt message type) = true

/-- The contract of an action after a confirmed dialog, read on the interface before and
after. A response with a truthy success flag shows exactly one `success` notification
and schedules exactly one reload, 1000 ms later; a response
`{success: false, message: m}` shows exactly one `error` notification, whose text
contains `m`, and schedules no reload. -/
def DispatchContract (ui onSuccess onFailure : Ui) (m : String) : Prop :=
  (ofKind "success" (shownBy ui onSuccess)).length = 1 ∧
  reloads (scheduledBy ui onSuccess) = [(1000, TimerTask.reload)] ∧
  (∃ n, ofKind "error" (shownBy ui onFailure) = [n] ∧ includes n.message m = true) ∧
  reloads (scheduledBy ui onFailure) = []

/-! ## Debounce -/

/-- What `this` is bound to in a call of a function. -/
inductive Receiver where
  | searchInput (value : String)
  | globalObject
deriving DecidableEq

/-- `this.value`: the text of the search box, `undefined` on the global object. -/
def Receiver.value : Receiver → Option String
  | .searchInput v => some v
  | .globalObject => none

/-- The closure returned by `debounce(func, wait)`: the variable `timeout`, the timers
it has set that are still live (identifier and due time, in order of creation, which
is the order of their due times), the next timer identifier, and the calls of `func`
made so far (time of the call and the `this` it received). -/
structure Debounced where
  timeout : Option Nat
  nextId : Nat
  pending : List (Nat × Nat)
  calls : List (Nat × Receiver)
deriving DecidableEq

/-- `clearTimeout(id)` on the live timers. -/
def clearTimeout (id : Option Nat) (pending : List (Nat × Nat)) : List (Nat × Nat) :=
  pending.filter (fun t => decide (some t.1 ≠ id))

/-- The arrow function `later`, run by its timer at time `now`. `func(...args)` is a
plain call: in a classic script without a strict-mode directive `func` receives the
global object as `this`, whatever `this` was in `executedFunction`. -/
def later (now : Nat) (d : Debounced) : Debounced :=
  { d with pending := clearTimeout d.timeout d.pending,
           calls := d.calls ++ [(now, Receiver.globalObject)] }

/-- The event loop runs the timers due by `now`, earliest first; the first argument
bounds the number of timers run. -/
def runTimers : Nat → Nat → Debounced → Debounced
  | 0, _, d => d
  | fuel + 1, now, d =>
    match d.pending.find? (fun t => decide (t.2 ≤ now)) with
    | none => d
    | some t => runTimers fuel now (later t.2 { d with pending := d.pending.erase t })

/-- Every timer due by `now` has run. -/
def advance (now : Nat) (d : Debounced) : Debounced :=
  runTimers d.pending.length now d

/-- `executedFunction(...args)` called at time `now`. -/
def executedFunction (wait now : Nat) (_receiver : Receiver) (d : Debounced) : Debounced :=
  { d with pending := clearTimeout d.timeout d.pending ++ [(d.nextId, now + wait)],
           timeout := some d.nextId,
           nextId := d.nextId + 1 }

/-- An `input` event on the search box at time `e.1`, the box then holding `e.2`: the
listener installed by `setupEventListeners` is `debounce(..., 300)` and is called with
the box as `this`. -/
def inputEvent (d : Debounced) (e : Nat × String) : Debounced :=
  executedFunction 300 e.1 (Receiver.searchInput e.2) (advance e.1 d)

/-- The calls of the debounced function by time `endTime`, for input events given in
order of time, starting from a fresh closure. -/
def callsAfter (events : List (Nat × String)) (endTime : Nat) : List (Nat × Receiver) :=
  (advance endTime (events.foldl inputEvent ⟨none, 0, [], []⟩)).calls

/-- The function handed to `debounce`: `function() { performSearch(this.value); }`. -/
def searchListener (rt : Runtime) (receiver : Receiver) (p : Page) : Page × Option JsError :=
  performSearch rt receiver.value p

/-! ## Worked inputs -/

/-- Lower-casing of the ASCII letters. -/
def asciiLower (s : String) : String := String.mk (s.data.map Char.toLower)

/-- A JSON string literal for a text that needs no escaping. -/
def quoteJson (s : String) : String := "\"" ++ s ++ "\""

/-- `JSON.stringify` on an object whose keys and values need no escaping. -/
def stringifyPlain (o : Obj) : String :=
  "\x7b" ++ ",".intercalate (o.map (fun kv => quoteJson kv.1 ++ ":" ++ quoteJson kv.2)) ++ "\x7d"

/-- The objects whose JSON texts the worked inputs store. -/
def sampleObjects : List Obj :=
  [[], [("status", "open")], [("status", "all")], [("status", "open"), ("author", "bob")]]

/-- `JSON.parse` on the texts of `sampleObjects` and on malformed text. -/
def parseSample (s : String) : Parsed :=
  match sampleObjects.find? (fun o => decide (stringifyPlain o = s)) with
  | some o => .entries o
  | none => .syntaxError

/-- The text of a built-in function. -/
def nativeFunctionText (name : String) : String :=
  "function " ++ name ++ "() \x7b [native code] \x7d"

/-- The HTML parser on the notification template filled with plain text, or with a text
that opens a comment which is never closed: the comment takes the rest of the markup,
the close button included. -/
def keepsButtonSample (markup : String) : Bool := !includes markup "<!--"

/-- The message of the `TypeError` raised by a property access on `null`. -/
def nullAccessMessage : String := "notification.querySelector(...) is null"

/-- The runtime of the worked inputs. -/
def sampleRuntime : Runtime :=
  ⟨asciiLower, stringifyPlain, parseSample, nativeFunctionText, keepsButtonSample,
    fun _ => nullAccessMessage⟩

/-- An interface on which nothing has been shown or scheduled. -/
def emptyUi : Ui := ⟨[], []⟩

/-- The status select of the worked inputs, holding `value`. -/
def statusSelect (value : String) : Select := ⟨"status", ["all", "open", "closed"], value⟩

/-- The author select of the worked inputs, holding `value`. -/
def authorSelect (value : String) : Select := ⟨"author", ["all", "alice", "bob"], value⟩

/-- An open merge request by alice. -/
def aliceRow : Item := ⟨some "Fix login", some "alice", ["bug"], some "open", []⟩

/-- A closed merge request by bob. -/
def bobRow : Item := ⟨some "Add cache", some "bob", [], some "closed", []⟩

/-- A row without an `.mr-author` element. -/
def rowWithoutAuthor : Item := ⟨some "Fix login", none, ["bug"], some "open", []⟩

/-- A row without an `.mr-title` element. -/
def rowWithoutTitle : Item := ⟨none, some "alice", ["bug"], some "open", []⟩

/-- A row without a `data-status` attribute. -/
def rowWithoutStatus : Item := ⟨some "Fix login", some "alice", ["bug"], none, []⟩

/-- A page with the given selects and rows, an empty-state element and no cached
filters. -/
def pageOf (selects : List Select) (items : List Item) : Page :=
  ⟨selects, items, some "none", none, 0⟩

/-- Five keystrokes within 200 ms that spell `alice`. -/
def fiveKeystrokes : List (Nat × String) :=
  [(0, "a"), (50, "al"), (100, "ali"), (150, "alic"), (200, "alice")]

/-- A status select whose first option carries the empty value and is the selected
one. -/
def anyStatusSelect : Select := ⟨"status", ["", "open", "closed"], ""⟩

/-- A page whose cached filters are the malformed text of a lone opening brace. -/
def brokenCachePage : Page :=
  ⟨[statusSelect "all"], [aliceRow, bobRow], some "none", some "\x7b", 0⟩


/-- The two rows under a status select that holds `open`. -/
def openPage : Page := pageOf [statusSelect "open"] [aliceRow, bobRow]

/-- The two rows under a status select that holds `closed`. -/
def closedPage : Page := pageOf [statusSelect "closed"] [aliceRow, bobRow]

/-- The two rows under a status select that holds `all`. -/
def allStatusPage : Page := pageOf [statusSelect "all"] [aliceRow, bobRow]

/-- The two rows without any filter select. -/
def plainPage : Page := pageOf [] [aliceRow, bobRow]

/-- The two rows under a status and an author select that both hold `all`. -/
def restingPage : Page := pageOf [statusSelect "all", authorSelect "all"] [aliceRow, bobRow]

/-- The two rows under a status select that holds `all` and an author select that holds
`bob`. -/
def bobChosenPage : Page := pageOf [statusSelect "all", authorSelect "bob"] [aliceRow, bobRow]

/-- The row of alice under a status select that holds the empty value. -/
def emptyValuePage : Page := pageOf [anyStatusSelect] [aliceRow]

/-- The criteria `{status: "open"}`. -/
def openCriteria : Obj := [("status", "open")]

/-- The criteria `{status: "all"}`. -/
def allCriteria : Obj := [("status", "all")]

/-- A closed merge request by bob whose row carries an inline `margin-block`. -/
def spacedRow : Item := ⟨some "Add cache", some "bob", [], some "closed", [("margin-block", "4px")]⟩

/-- The row with the inline `margin-block` under a status select that holds `open`, the
empty-state element being shown. -/
def spacedPage : Page := ⟨[statusSelect "open"], [spacedRow], some "block", none, 0⟩

/-- The rows of alice and bob followed by a row without an `.mr-author` element, under a
status select that holds `value`. -/
def mixedPage (value : String) : Page :=
  pageOf [statusSelect value] [aliceRow, bobRow, rowWithoutAuthor]

/-! # Lemmas and theorems -/

/-! ## Lemmas: strings -/

theorem startsWith_iff (s q : List Char) : startsWith s q = true ↔ q <+: s := by
  induction s generalizing q with
  | nil => cases q <;> simp [startsWith]
  | cons c s ih =>
    cases q with
    | nil => simp [startsWith]
    | cons d q =>
      simp only [startsWith, Bool.and_eq_true, beq_iff_eq, ih, List.cons_prefix_cons]
      constructor
      · rintro ⟨h1, h2⟩; exact ⟨h1.symm, h2⟩
      · rintro ⟨h1, h2⟩; exact ⟨h1.symm, h2⟩

theorem includesChars_iff (s q : List Char) : includesChars s q = true ↔ q <:+: s := by
  induction s with
  | nil => cases q <;> simp [includesChars, startsWith]
  | cons c s ih =>
    simp only [includesChars, Bool.or_eq_true, ih, startsWith_iff, List.infix_cons_iff]

theorem includes_iff (s q : String) : includes s q = true ↔ IsSubstring q s :=
  includesChars_iff s.data q.data

theorem includes_append_right (a m : String) : includes (a ++ m) m = true := by
  rw [includes_iff]
  show m.data <:+: (a ++ m).data
  rw [String.data_append]
  exact (List.suffix_append _ _).isInfix

/-! ## Lemmas: plain objects and the inline style -/

theorem Obj.get_set (o : Obj) (k v k' : String) :
    (o.set k v).get k' = if k = k' then some v else o.get k' := by
  induction o with
  | nil => simp [Obj.set, Obj.get]
  | cons e o ih =>
    obtain ⟨k0, v0⟩ := e
    by_cases h0 : k0 = k
    · subst h0
      by_cases h1 : k0 = k' <;> simp [Obj.set, Obj.get, h1]
    · by_cases h1 : k0 = k'
      · subst h1
        simp [Obj.set, Obj.get, h0, Ne.symm h0]
      · simp [Obj.set, Obj.get, h0, h1, ih]

theorem Obj.set_set (o : Obj) (k v w : String) : (o.set k v).set k w = o.set k w := by
  induction o with
  | nil => simp [Obj.set]
  | cons e o ih =>
    obtain ⟨k0, v0⟩ := e
    by_cases h0 : k0 = k
    · simp [Obj.set, h0]
    · simp [Obj.set, h0, ih]

theorem Item.display_setDisplay (item : Item) (v : String) : (item.setDisplay v).display = v := by
  unfold Item.display Item.setDisplay
  simp [Obj.get_set]

theorem Item.setDisplay_setDisplay (item : Item) (v w : String) :
    (item.setDisplay v).setDisplay w = item.setDisplay w := by
  unfold Item.setDisplay
  simp [Obj.set_set]

theorem sameRow_setDisplay (item : Item) (v : String) : SameRow item (item.setDisplay v) := by
  unfold SameRow
  rw [Item.display_setDisplay]

/-! ## Lemmas: the row loop -/

theorem forEachItem_ok (f : Item → Except JsError Item) (g : Item → Item) (l : List Item)
    (h : ∀ item ∈ l, f item = .ok (g item)) : forEachItem f l = (l.map g, none) := by
  induction l with
  | nil => rfl
  | cons a l ih =>
    have ha := h a (List.mem_cons_self _ _)
    have hl := ih (fun item hm => h item (List.mem_cons_of_mem _ hm))
    simp [forEachItem, ha, hl]

theorem forall₂_map_of_forall {R : Item → Item → Prop} (g : Item → Item) (l : List Item)
    (h : ∀ item ∈ l, R item (g item)) : List.Forall₂ R l (l.map g) := by
  induction l with
  | nil => exact List.Forall₂.nil
  | cons a l ih =>
    exact List.Forall₂.cons (h a (List.mem_cons_self _ _))
      (ih (fun item hm => h item (List.mem_cons_of_mem _ hm)))

theorem block_ne_none : ("block" : String) ≠ "none" := by decide

/-! ## Search -/

theorem searchItem_ok (rt : Runtime) (q : String) (item : Item)
    (h : item.title ≠ none ∧ item.author ≠ none) :
    searchItem rt (some q) item =
      .ok (item.setDisplay (if searchMatch rt q item then "block" else "none")) := by
  obtain ⟨t, a, ls, st, d⟩ := item
  cases t with
  | none => exact absurd rfl h.1
  | some t =>
    cases a with
    | none => exact absurd rfl h.2
    | some a => rfl

theorem searchMatch_iff (rt : Runtime) (hlow : rt.toLowerCase "" = "") (q : String)
    (item : Item) (h : item.title ≠ none ∧ item.author ≠ none) :
    searchMatch rt q item = true ↔ SearchHit rt q item := by
  obtain ⟨t, a, ls, st, d⟩ := item
  cases t with
  | none => exact absurd rfl h.1
  | some t =>
    cases a with
    | none => exact absurd rfl h.2
    | some a =>
      simp only [searchMatch, SearchHit, Option.getD_some, Bool.or_eq_true, List.any_eq_true,
        List.mem_map, includes_iff, Option.some.injEq, exists_eq_left']
      constructor
      · rintro (h1 | h1)
        · rcases h1 with h1 | h1
          · exact Or.inr (Or.inl h1)
          · exact Or.inr (Or.inr (Or.inl h1))
        · obtain ⟨x, ⟨l, hl, rfl⟩, hx⟩ := h1
          exact Or.inr (Or.inr (Or.inr ⟨l, hl, hx⟩))
      · rintro (h1 | h1 | h1 | h1)
        · subst h1
          rw [hlow]
          exact Or.inl (Or.inl List.nil_infix)
        · exact Or.inl (Or.inl h1)
        · exact Or.inl (Or.inr h1)
        · obtain ⟨l, hl, hx⟩ := h1
          exact Or.inr ⟨_, ⟨l, hl, rfl⟩, hx⟩

theorem performSearch_complete (rt : Runtime) (q : String) (p : Page)
    (h : ∀ item ∈ p.items, item.title ≠ none ∧ item.author ≠ none) :
    performSearch rt (some q) p =
      (updateEmptyState { p with items := p.items.map (fun item =>
        item.setDisplay (if searchMatch rt q item then "block" else "none")) }, none) := by
  have hl := forEachItem_ok (searchItem rt (some q)) _ p.items
    (fun item hm => searchItem_ok rt q item (h item hm))
  simp [performSearch, hl]

theorem updateEmptyState_items (p : Page) : (updateEmptyState p).items = p.items := by
  unfold updateEmptyState
  cases p.emptyState with
  | none => rfl
  | some _ => dsimp only; split <;> rfl

/-- C2. For a runtime whose `toLowerCase` maps the empty string to itself, every query
and every page whose rows all have a title and an author: `performSearch` completes
without an exception, changes nothing of a row but its display, and sets the display
to `block` exactly when the query is empty or the lower-cased query is a substring of
the lower-cased title, author or one of the lower-cased labels, and to `none`
otherwise. -/
theorem performSearch_display_iff (rt : Runtime) (hlow : rt.toLowerCase "" = "") (q : String)
    (p : Page) (h : ∀ item ∈ p.items, item.title ≠ none ∧ item.author ≠ none) :
    (performSearch rt (some q) p).2 = none ∧
    List.Forall₂ (fun item item' => SameRow item item' ∧
        (item'.display = "block" ↔ SearchHit rt q item) ∧
        (item'.display = "none" ↔ ¬ SearchHit rt q item))
      p.items (performSearch rt (some q) p).1.items := by
  rw [performSearch_complete rt q p h]
  refine ⟨rfl, ?_⟩
  rw [updateEmptyState_items]
  apply forall₂_map_of_forall
  intro item hm
  have hiff := searchMatch_iff rt hlow q item (h item hm)
  refine ⟨sameRow_setDisplay _ _, ?_, ?_⟩
  · rw [Item.display_setDisplay]
    by_cases hs : searchMatch rt q item = true
    · simp [hs, ← hiff]
    · simp [hs, ← hiff, block_ne_none.symm]
  · rw [Item.display_setDisplay]
    by_cases hs : searchMatch rt q item = true
    · simp [hs, ← hiff, block_ne_none]
    · simp [hs, ← hiff]

/-! ## Empty state -/

theorem forEachItem_done (f : Item → Except JsError Item) (l : List Item)
    (h : (forEachItem f l).2 = none) :
    ∀ x ∈ (forEachItem f l).1, ∃ y ∈ l, f y = .ok x := by
  induction l with
  | nil => intro x hx; simp [forEachItem] at hx
  | cons a l ih =>
    cases hfa : f a with
    | error e => simp [forEachItem, hfa] at h
    | ok b =>
      simp only [forEachItem, hfa] at h ⊢
      intro x hx
      rcases List.mem_cons.mp hx with hx | hx
      · exact ⟨a, List.mem_cons_self _ _, by rw [hfa, hx]⟩
      · obtain ⟨y, hy, hfy⟩ := ih h x hx
        exact ⟨y, List.mem_cons_of_mem _ hy, hfy⟩

theorem filterItem_result (filters : Obj) (item item' : Item)
    (h : filterItem filters item = .ok item') :
    ∃ v, (v = "block" ∨ v = "none") ∧ item' = item.setDisplay v := by
  unfold filterItem at h
  split at h
  · cases h
  · next shouldShow _ =>
    cases h
    cases shouldShow
    · exact ⟨"none", Or.inr rfl, rfl⟩
    · exact ⟨"block", Or.inl rfl, rfl⟩

theorem searchItem_result (rt : Runtime) (query : Option String) (item item' : Item)
    (h : searchItem rt query item = .ok item') :
    ∃ v, (v = "block" ∨ v = "none") ∧ item' = item.setDisplay v := by
  unfold searchItem at h
  split at h
  · cases h
  · split at h
    · cases h
    · split at h
      · cases h
      · cases h
        split
        · exact ⟨"block", Or.inl rfl, rfl⟩
        · exact ⟨"none", Or.inr rfl, rfl⟩

theorem matchesVisibleSelector_setDisplay (item : Item) (hp : PlainStyle item) (v : String)
    (hv : v = "block" ∨ v = "none") :
    matchesVisibleSelector (item.setDisplay v) = true ↔ (item.setDisplay v).display = "block" := by
  rw [Item.display_setDisplay]
  unfold matchesVisibleSelector styleAttr Item.setDisplay
  rcases hp with hp | hp
  · rw [hp]
    simp only [Obj.set]
    rcases hv with hv | hv
    · subst hv; decide
    · subst hv; decide
  · generalize item.display = d at hp
    rw [hp]
    simp only [Obj.set, if_true]
    rcases hv with hv | hv
    · subst hv; decide
    · subst hv; decide

theorem updateEmptyState_spec (p : Page) (d0 : String) (hes : p.emptyState = some d0)
    (hsel : ∀ item ∈ p.items, (matchesVisibleSelector item = true ↔ item.display = "block")) :
    ((updateEmptyState p).emptyState = some "block" ↔
      ∀ item ∈ p.items, item.display ≠ "block") ∧
    ((updateEmptyState p).emptyState = some "none" ↔
      ∃ item ∈ p.items, item.display = "block") := by
  have hcount : (p.items.filter matchesVisibleSelector).length = 0 ↔
      ∀ item ∈ p.items, item.display ≠ "block" := by
    rw [List.length_eq_zero, List.filter_eq_nil_iff]
    constructor
    · intro h item hm hb
      exact h item hm ((hsel item hm).mpr hb)
    · intro h item hm hv
      exact h item hm ((hsel item hm).mp hv)
  unfold updateEmptyState
  rw [hes]
  dsimp only
  by_cases hz : (p.items.filter matchesVisibleSelector).length = 0
  · rw [if_pos hz]
    refine ⟨⟨fun _ => hcount.mp hz, fun _ => rfl⟩, ⟨fun h => ?_, fun h => ?_⟩⟩
    · simp at h
    · obtain ⟨item, hm, hb⟩ := h
      exact absurd hb (hcount.mp hz item hm)
  · rw [if_neg hz]
    have hex : ∃ item ∈ p.items, item.display = "block" := by
      by_contra hne
      push_neg at hne
      exact hz (hcount.mpr hne)
    refine ⟨⟨fun h => ?_, fun h => ?_⟩, ⟨fun _ => hex, fun _ => rfl⟩⟩
    · simp at h
    · obtain ⟨item, hm, hb⟩ := hex
      exact absurd hb (h item hm)

/-- On a page that has an empty-state element and whose rows carry no inline declaration
other than `display`, whenever `applyFilters` or `performSearch` (with any argument)
finishes without an exception, the display of the empty-state element is `block`
exactly when no row has display `block` after that application, and `none` exactly
when some row has. -/
theorem emptyState_iff_no_visible (rt : Runtime) (query : Option String) (p : Page)
    (d0 : String) (hes : p.emptyState = some d0)
    (hplain : ∀ item ∈ p.items, PlainStyle item) :
    ((applyFilters rt p).2 = none →
      (((applyFilters rt p).1.emptyState = some "block" ↔
          ∀ item ∈ (applyFilters rt p).1.items, item.display ≠ "block") ∧
       ((applyFilters rt p).1.emptyState = some "none" ↔
          ∃ item ∈ (applyFilters rt p).1.items, item.display = "block"))) ∧
    ((performSearch rt query p).2 = none →
      (((performSearch rt query p).1.emptyState = some "block" ↔
          ∀ item ∈ (performSearch rt query p).1.items, item.display ≠ "block") ∧
       ((performSearch rt query p).1.emptyState = some "none" ↔
          ∃ item ∈ (performSearch rt query p).1.items, item.display = "block"))) := by
  constructor
  · intro hdone
    unfold applyFilters at hdone ⊢
    dsimp only at hdone ⊢
    cases hl : (forEachItem (filterItem (getActiveFilters p.selects)) p.items).2 with
    | some e => rw [hl] at hdone; simp at hdone
    | none =>
      simp only [hl, cacheFilters, updateEmptyState_items]
      have hsel : ∀ item ∈ (forEachItem (filterItem (getActiveFilters p.selects)) p.items).1,
          (matchesVisibleSelector item = true ↔ item.display = "block") := by
        intro item hm
        obtain ⟨y, hy, hfy⟩ := forEachItem_done _ _ hl item hm
        obtain ⟨v, hv, rfl⟩ := filterItem_result _ y item hfy
        exact matchesVisibleSelector_setDisplay y (hplain y hy) v hv
      exact updateEmptyState_spec
        { p with items := (forEachItem (filterItem (getActiveFilters p.selects)) p.items).1,
                 filterRuns := p.filterRuns + 1 } d0 hes hsel
  · intro hdone
    unfold performSearch at hdone ⊢
    dsimp only at hdone ⊢
    cases hl : (forEachItem (searchItem rt query) p.items).2 with
    | some e => rw [hl] at hdone; simp at hdone
    | none =>
      simp only [hl, updateEmptyState_items]
      have hsel : ∀ item ∈ (forEachItem (searchItem rt query) p.items).1,
          (matchesVisibleSelector item = true ↔ item.display = "block") := by
        intro item hm
        obtain ⟨y, hy, hfy⟩ := forEachItem_done _ _ hl item hm
        obtain ⟨v, hv, rfl⟩ := searchItem_result rt query y item hfy
        exact matchesVisibleSelector_setDisplay y (hplain y hy) v hv
      exact updateEmptyState_spec
        { p with items := (forEachItem (searchItem rt query) p.items).1 } d0 hes hsel

/-! ## Filters -/

theorem getActiveFiltersStep_get (acc : Obj) (s : Select) (k : String)
    (hk : k ≠ "__proto__") :
    (getActiveFiltersStep acc s).get k =
      if s.name = k ∧ isActive s.value = true then some s.value else acc.get k := by
  unfold getActiveFiltersStep Obj.assign
  by_cases ha : isActive s.value = true
  · by_cases hn : s.name = k
    · subst hn
      simp [ha, hk, Obj.get_set]
    · by_cases hp : s.name = "__proto__"
      · simp [ha, hp, Ne.symm hk]
      · simp [ha, hn, hp, Obj.get_set]
  · simp [ha]

theorem foldl_getActiveFiltersStep_get (sels : List Select) (acc : Obj) (k : String)
    (hk : k ≠ "__proto__") :
    (sels.foldl getActiveFiltersStep acc).get k =
      match lastActive sels k with
      | some v => some v
      | none => acc.get k := by
  induction sels generalizing acc with
  | nil => rfl
  | cons s rest ih =>
    rw [List.foldl_cons, ih, getActiveFiltersStep_get acc s k hk]
    simp only [lastActive]
    cases lastActive rest k with
    | some v => rfl
    | none =>
      dsimp only
      split <;> rfl

theorem getActiveFilters_get (sels : List Select) (k : String) (hk : k ≠ "__proto__") :
    (getActiveFilters sels).get k = lastActive sels k := by
  unfold getActiveFilters
  rw [foldl_getActiveFiltersStep_get sels [] k hk]
  cases lastActive sels k <;> rfl

theorem lastActive_mem (sels : List Select) (k v : String) (h : lastActive sels k = some v) :
    ∃ s ∈ sels, s.name = k ∧ s.value = v ∧ isActive v = true := by
  induction sels with
  | nil => simp [lastActive] at h
  | cons s rest ih =>
    simp only [lastActive] at h
    cases hr : lastActive rest k with
    | some w =>
      rw [hr] at h
      obtain ⟨s', hs', h'⟩ := ih (by rw [hr]; exact h)
      exact ⟨s', List.mem_cons_of_mem _ hs', h'⟩
    | none =>
      rw [hr] at h
      dsimp only at h
      split at h
      · next hc =>
        cases h
        exact ⟨s, List.mem_cons_self _ _, hc.1, rfl, hc.2⟩
      · cases h

theorem lastActive_of_mem (sels : List Select) (hnd : (sels.map (·.name)).Nodup)
    (s : Select) (hs : s ∈ sels) (hact : isActive s.value = true) :
    lastActive sels s.name = some s.value := by
  induction sels with
  | nil => cases hs
  | cons a rest ih =>
    rw [List.map_cons, List.nodup_cons] at hnd
    simp only [lastActive]
    rcases List.mem_cons.mp hs with hs | hs
    · subst hs
      cases hr : lastActive rest s.name with
      | some w =>
        obtain ⟨s', hs', hn, _⟩ := lastActive_mem rest s.name w hr
        exact absurd (List.mem_map.mpr ⟨s', hs', hn⟩) hnd.1
      | none => simp [hact]
    · rw [ih hnd.2 hs]

theorem applyLabelFilter_eq (filters : Obj) (item : Item) (b : Bool) :
    applyLabelFilter filters item b =
      (b && keyPass filters "label" (fun v => decide (v ∈ item.labels))) := by
  unfold applyLabelFilter keyPass
  cases Obj.get filters "label" with
  | none => simp
  | some v => cases b <;> by_cases ha : isActive v = true <;>
      by_cases hm : v ∈ item.labels <;> simp [ha, hm]

theorem applyStatusFilter_eq (filters : Obj) (item : Item) (b : Bool) :
    applyStatusFilter filters item b =
      (b && keyPass filters "status" (fun v => decide (item.status = some v))) := by
  unfold applyStatusFilter keyPass
  cases Obj.get filters "status" with
  | none => simp
  | some v => cases b <;> by_cases ha : isActive v = true <;>
      by_cases hm : item.status = some v <;> simp [ha, hm]

theorem applyAuthorFilter_eq (filters : Obj) (item : Item) (b : Bool)
    (h : item.author ≠ none) :
    applyAuthorFilter filters item b =
      .ok (b && keyPass filters "author" (fun v => decide (item.author = some v))) := by
  obtain ⟨t, a, ls, st, d⟩ := item
  cases a with
  | none => exact absurd rfl h
  | some a =>
    unfold applyAuthorFilter keyPass
    cases Obj.get filters "author" with
    | none => simp
    | some v => cases b <;> by_cases ha : isActive v = true <;>
        by_cases hm : a = v <;> simp [ha, hm]

theorem filterItem_ok (filters : Obj) (item : Item) (h : item.author ≠ none) :
    filterItem filters item =
      .ok (item.setDisplay (if shouldShowOf filters item then "block" else "none")) := by
  unfold filterItem shouldShowOf
  rw [applyLabelFilter_eq, applyStatusFilter_eq, applyAuthorFilter_eq _ _ _ h]
  simp

theorem keyPass_iff (sels : List Select) (hnd : (sels.map (·.name)).Nodup) (k : String)
    (hk : k ≠ "__proto__") (test : String → Bool) :
    keyPass (getActiveFilters sels) k test = true ↔
      ∀ s ∈ sels, s.name = k → isActive s.value = true → test s.value = true := by
  unfold keyPass
  rw [getActiveFilters_get sels k hk]
  constructor
  · intro h s hs hn hact
    have hl := lastActive_of_mem sels hnd s hs hact
    rw [hn] at hl
    rw [hl] at h
    simpa [hact] using h
  · intro h
    cases hl : lastActive sels k with
    | none => rfl
    | some v =>
      obtain ⟨s, hs, hn, hv, hact⟩ := lastActive_mem sels k v hl
      have := h s hs hn (hv ▸ hact)
      rw [hv] at this
      simp [this]

theorem shouldShowOf_iff (sels : List Select) (hnd : (sels.map (·.name)).Nodup)
    (item : Item) :
    shouldShowOf (getActiveFilters sels) item = true ↔ MeetsActive sels item := by
  unfold shouldShowOf MeetsActive Satisfies
  rw [Bool.and_eq_true, Bool.and_eq_true,
    keyPass_iff sels hnd "label" (by decide), keyPass_iff sels hnd "status" (by decide),
    keyPass_iff sels hnd "author" (by decide)]
  simp only [decide_eq_true_eq]
  constructor
  · rintro ⟨⟨h1, h2⟩, h3⟩ s hs hact
    exact ⟨fun hn => h1 s hs hn hact, fun hn => h2 s hs hn hact, fun hn => h3 s hs hn hact⟩
  · intro h
    exact ⟨⟨fun s hs hn hact => (h s hs hact).1 hn, fun s hs hn hact => (h s hs hact).2.1 hn⟩,
      fun s hs hn hact => (h s hs hact).2.2 hn⟩

theorem applyFilters_complete (rt : Runtime) (p : Page)
    (h : ∀ item ∈ p.items, item.author ≠ none) :
    applyFilters rt p =
      (cacheFilters rt (getActiveFilters p.selects)
        (updateEmptyState { p with
          items := p.items.map (fun item =>
            item.setDisplay (if shouldShowOf (getActiveFilters p.selects) item
                then "block" else "none")),
          filterRuns := p.filterRuns + 1 }), none) := by
  have hl := forEachItem_ok (filterItem (getActiveFilters p.selects)) _ p.items
    (fun item hm => filterItem_ok (getActiveFilters p.selects) item (h item hm))
  simp [applyFilters, hl]

/-- C1, amended. On a page whose filter selects have pairwise distinct names and whose
rows all have an author element, `applyFilters` completes without an exception, changes
nothing of a row but its display, and sets the display to `block` exactly when the row
satisfies every criterion whose value is neither the empty string nor `all`, and to
`none` otherwise. -/
theorem applyFilters_display_iff (rt : Runtime) (p : Page)
    (hnames : (p.selects.map (·.name)).Nodup)
    (hauthor : ∀ item ∈ p.items, item.author ≠ none) :
    (applyFilters rt p).2 = none ∧
    List.Forall₂ (fun item item' => SameRow item item' ∧
        (item'.display = "block" ↔ MeetsActive p.selects item) ∧
        (item'.display = "none" ↔ ¬ MeetsActive p.selects item))
      p.items (applyFilters rt p).1.items := by
  rw [applyFilters_complete rt p hauthor]
  refine ⟨rfl, ?_⟩
  simp only [cacheFilters, updateEmptyState_items]
  apply forall₂_map_of_forall
  intro item _
  have hiff := shouldShowOf_iff p.selects hnames item
  refine ⟨sameRow_setDisplay _ _, ?_, ?_⟩
  · rw [Item.display_setDisplay]
    by_cases hs : shouldShowOf (getActiveFilters p.selects) item = true
    · simp [hs, ← hiff]
    · simp [hs, ← hiff, block_ne_none.symm]
  · rw [Item.display_setDisplay]
    by_cases hs : shouldShowOf (getActiveFilters p.selects) item = true
    · simp [hs, ← hiff, block_ne_none]
    · simp [hs, ← hiff]

/-! ## Persistence cache -/

theorem applyFilters_eq_with (rt : Runtime) (p : Page) :
    applyFilters rt p = applyFiltersWith rt (getActiveFilters p.selects) p := rfl

theorem Select.assign_name (s : Select) (v : String) : (s.assign v).name = s.name := by
  unfold Select.assign
  split <;> rfl

theorem Select.assign_value (s : Select) (v : String) (h : v ∈ s.options) :
    (s.assign v).value = v := by
  unfold Select.assign
  rw [if_pos h]

theorem Obj.get_some_mem (o : Obj) (k v : String) (h : o.get k = some v) : (k, v) ∈ o := by
  induction o with
  | nil => cases h
  | cons e o ih =>
    obtain ⟨k0, v0⟩ := e
    simp only [Obj.get] at h
    by_cases h0 : k0 = k
    · rw [if_pos h0] at h
      cases h
      rw [h0]
      exact List.mem_cons_self _ _
    · rw [if_neg h0] at h
      exact List.mem_cons_of_mem _ (ih h)

theorem Obj.get_none_iff (o : Obj) (k : String) :
    o.get k = none ↔ ∀ kv ∈ o, kv.1 ≠ k := by
  induction o with
  | nil => simp [Obj.get]
  | cons e o ih =>
    obtain ⟨k0, v0⟩ := e
    by_cases h0 : k0 = k
    · simp [Obj.get, h0]
    · simp [Obj.get, h0, ih]

theorem Obj.get_of_mem (o : Obj) (hnd : (o.map (·.1)).Nodup) (k v : String)
    (h : (k, v) ∈ o) : o.get k = some v := by
  induction o with
  | nil => cases h
  | cons e o ih =>
    obtain ⟨k0, v0⟩ := e
    rw [List.map_cons, List.nodup_cons] at hnd
    rcases List.mem_cons.mp h with h | h
    · cases h
      simp [Obj.get]
    · have hne : k0 ≠ k := by
        intro heq
        exact hnd.1 (List.mem_map.mpr ⟨(k, v), h, heq.symm⟩)
      simp only [Obj.get, if_neg hne]
      exact ih hnd.2 h

theorem map_eq_self_of_forall {α : Type} (f : α → α) (l : List α) (h : ∀ x ∈ l, f x = x) :
    l.map f = l := by
  induction l with
  | nil => rfl
  | cons a l ih =>
    rw [List.map_cons, h a (List.mem_cons_self _ _),
      ih (fun x hx => h x (List.mem_cons_of_mem _ hx))]

theorem restoreSelect_eq_map (sels : List Select) (hnd : (sels.map (·.name)).Nodup)
    (name value : String) :
    restoreSelect sels name value =
      sels.map (fun s => if s.name = name then s.assign value else s) := by
  induction sels with
  | nil => rfl
  | cons s rest ih =>
    rw [List.map_cons, List.nodup_cons] at hnd
    simp only [restoreSelect, List.map_cons]
    by_cases hn : s.name = name
    · rw [if_pos hn, if_pos hn]
      congr 1
      symm
      apply map_eq_self_of_forall
      intro s' hs'
      have : s'.name ≠ name := by
        intro heq
        exact hnd.1 (List.mem_map.mpr ⟨s', hs', heq.trans hn.symm⟩)
      rw [if_neg this]
    · rw [if_neg hn, if_neg hn, ih hnd.2]

theorem restore_eq_map (entries : Obj) (hkeys : (entries.map (·.1)).Nodup)
    (sels : List Select) (hnd : (sels.map (·.name)).Nodup) :
    entries.foldl restoreStep sels = sels.map (restoreOne entries) := by
  induction entries generalizing sels with
  | nil =>
    simp only [List.foldl_nil]
    symm
    apply map_eq_self_of_forall
    intro s _
    rfl
  | cons e rest ih =>
    obtain ⟨k0, v0⟩ := e
    rw [List.map_cons, List.nodup_cons] at hkeys
    have hnone : Obj.get rest k0 = none := by
      rw [Obj.get_none_iff]
      intro kv hkv heq
      exact hkeys.1 (List.mem_map.mpr ⟨kv, hkv, heq⟩)
    rw [List.foldl_cons]
    unfold restoreStep
    simp only
    rw [restoreSelect_eq_map sels hnd]
    have hnd' : ((sels.map (fun s => if s.name = k0 then s.assign v0 else s)).map
        (·.name)).Nodup := by
      have : (sels.map (fun s => if s.name = k0 then s.assign v0 else s)).map (·.name) =
          sels.map (·.name) := by
        rw [List.map_map]
        apply List.map_congr_left
        intro s _
        simp only [Function.comp]
        split
        · exact Select.assign_name s v0
        · rfl
      rw [this]; exact hnd
    have := ih hkeys.2 _ hnd'
    unfold restoreStep at this
    rw [this, List.map_map]
    apply List.map_congr_left
    intro s _
    simp only [Function.comp, restoreOne, Obj.get]
    by_cases hn : s.name = k0
    · rw [if_pos hn, Select.assign_name, hn, hnone]
      simp
    · rw [if_neg hn, if_neg (Ne.symm hn)]

theorem restoreOne_name (entries : Obj) (s : Select) : (restoreOne entries s).name = s.name := by
  unfold restoreOne
  split
  · exact Select.assign_name s _
  · rfl

theorem lastActive_eq_none (sels : List Select) (k : String)
    (h : ∀ s ∈ sels, s.name = k → isActive s.value = false) : lastActive sels k = none := by
  induction sels with
  | nil => rfl
  | cons s rest ih =>
    simp only [lastActive]
    rw [ih (fun s' hs' => h s' (List.mem_cons_of_mem _ hs'))]
    dsimp only
    rw [if_neg]
    rintro ⟨hn, hact⟩
    rw [h s (List.mem_cons_self _ _) hn] at hact
    cases hact

theorem foldl_getActiveFiltersStep_get_proto (sels : List Select) (acc : Obj) :
    (sels.foldl getActiveFiltersStep acc).get "__proto__" = acc.get "__proto__" := by
  induction sels generalizing acc with
  | nil => rfl
  | cons s rest ih =>
    rw [List.foldl_cons, ih]
    unfold getActiveFiltersStep Obj.assign
    by_cases ha : isActive s.value = true
    · by_cases hp : s.name = "__proto__"
      · simp [ha, hp]
      · simp [ha, hp, Obj.get_set]
    · simp [ha]

theorem filterItem_congr (f1 f2 : Obj) (h : ∀ k, f1.get k = f2.get k) :
    filterItem f1 = filterItem f2 := by
  funext item
  simp only [filterItem, applyAuthorFilter, applyStatusFilter, applyLabelFilter, h]

theorem applyFiltersWith_thrown (rt : Runtime) (filters : Obj) (p : Page) :
    (applyFiltersWith rt filters p).2 = (forEachItem (filterItem filters) p.items).2 := by
  unfold applyFiltersWith
  dsimp only
  cases h : (forEachItem (filterItem filters) p.items).2 <;> rfl

theorem applyFiltersWith_items (rt : Runtime) (filters : Obj) (p : Page) :
    (applyFiltersWith rt filters p).1.items = (forEachItem (filterItem filters) p.items).1 := by
  unfold applyFiltersWith
  dsimp only
  cases h : (forEachItem (filterItem filters) p.items).2 with
  | some e => rfl
  | none => simp only [cacheFilters, updateEmptyState_items]

theorem updateEmptyState_selects (p : Page) : (updateEmptyState p).selects = p.selects := by
  unfold updateEmptyState
  cases p.emptyState with
  | none => rfl
  | some _ => dsimp only; split <;> rfl

theorem applyFiltersWith_selects (rt : Runtime) (filters : Obj) (p : Page) :
    (applyFiltersWith rt filters p).1.selects = p.selects := by
  unfold applyFiltersWith
  dsimp only
  cases h : (forEachItem (filterItem filters) p.items).2 with
  | some e => rfl
  | none => simp only [cacheFilters, updateEmptyState_selects]

theorem applyFiltersWith_storage (rt : Runtime) (filters : Obj) (p : Page)
    (h : (forEachItem (filterItem filters) p.items).2 = none) :
    (applyFiltersWith rt filters p).1.storage = some (rt.jsonStringify filters) := by
  unfold applyFiltersWith
  dsimp only
  rw [h]
  rfl

theorem getActiveFilters_restore_get (criteria : Obj) (sels : List Select)
    (hnames : (sels.map (·.name)).Nodup) (hkeys : (criteria.map (·.1)).Nodup)
    (hfk : ∀ kv ∈ criteria, kv.1 ∈ filterKeys)
    (hsel : ∀ kv ∈ criteria, ∃ s ∈ sels, s.name = kv.1 ∧ kv.2 ∈ s.options)
    (hact : ∀ kv ∈ criteria, isActive kv.2 = true)
    (hrest : ∀ s ∈ sels, (∀ kv ∈ criteria, kv.1 ≠ s.name) → isActive s.value = false)
    (k : String) :
    (getActiveFilters (criteria.foldl restoreStep sels)).get k = criteria.get k := by
  rw [restore_eq_map criteria hkeys sels hnames]
  have hnames' : ((sels.map (restoreOne criteria)).map (·.name)).Nodup := by
    have : (sels.map (restoreOne criteria)).map (·.name) = sels.map (·.name) := by
      rw [List.map_map]
      apply List.map_congr_left
      intro s _
      exact restoreOne_name criteria s
    rw [this]; exact hnames
  by_cases hk : k = "__proto__"
  · subst hk
    unfold getActiveFilters
    rw [foldl_getActiveFiltersStep_get_proto]
    symm
    show Obj.get criteria "__proto__" = none
    rw [Obj.get_none_iff]
    intro kv hkv heq
    have := hfk kv hkv
    rw [heq] at this
    revert this
    decide
  · rw [getActiveFilters_get _ k hk]
    cases hc : Obj.get criteria k with
    | none =>
      apply lastActive_eq_none
      intro s' hs' hn
      obtain ⟨s, hs, rfl⟩ := List.mem_map.mp hs'
      rw [restoreOne_name] at hn
      have hs0 : restoreOne criteria s = s := by
        unfold restoreOne
        rw [hn, hc]
      rw [hs0]
      apply hrest s hs
      rw [hn]
      exact (Obj.get_none_iff criteria k).mp hc
    | some v =>
      have hmem := Obj.get_some_mem criteria k v hc
      obtain ⟨s, hs, hn, hopt⟩ := hsel (k, v) hmem
      have hs0 : restoreOne criteria s = s.assign v := by
        unfold restoreOne
        rw [hn]
        simp only [hc]
      have hs' : s.assign v ∈ sels.map (restoreOne criteria) :=
        List.mem_map.mpr ⟨s, hs, hs0⟩
      have hval : (s.assign v).value = v := Select.assign_value s v hopt
      have hactive : isActive (s.assign v).value = true := by
        rw [hval]; exact hact (k, v) hmem
      have := lastActive_of_mem _ hnames' (s.assign v) hs' hactive
      rw [Select.assign_name, hn, hval] at this
      exact this

/-- C5, amended. Let the filter selects have pairwise distinct names, let the criteria
be a mapping over the keys label, status and author in which every key names a filter
select and every value is an option of that select other than the empty string and
`all`, and let every select the criteria do not name hold the empty string or `all`.
For a runtime whose JSON built-ins round-trip the criteria object and the object
`applyFilters` stores, and whenever the direct run of `applyFilters` on the criteria
completes: `cacheFilters(criteria)` followed by `loadCachedFilters()` completes, every
named select holds the saved value, every row is as the direct run leaves it, and the
text stored under `mr-filters` parses to an object with the same value as the criteria
under every key. -/
theorem cacheThenLoad_round_trip (rt : Runtime) (criteria : Obj) (p : Page)
    (hnames : (p.selects.map (·.name)).Nodup) (hkeys : (criteria.map (·.1)).Nodup)
    (hfk : ∀ kv ∈ criteria, kv.1 ∈ filterKeys)
    (hsel : ∀ kv ∈ criteria, ∃ s ∈ p.selects, s.name = kv.1 ∧ kv.2 ∈ s.options)
    (hact : ∀ kv ∈ criteria, isActive kv.2 = true)
    (hrest : ∀ s ∈ p.selects, (∀ kv ∈ criteria, kv.1 ≠ s.name) → isActive s.value = false)
    (hne : rt.jsonStringify criteria ≠ "")
    (hparse : rt.jsonParse (rt.jsonStringify criteria) = .entries criteria)
    (hparse' : rt.jsonParse
        (rt.jsonStringify (getActiveFilters (criteria.foldl restoreStep p.selects))) =
      .entries (getActiveFilters (criteria.foldl restoreStep p.selects)))
    (hdirect : (applyFiltersWith rt criteria p).2 = none) :
    (cacheThenLoad rt criteria p).2 = none ∧
    (∀ kv ∈ criteria, ∃ s ∈ (cacheThenLoad rt criteria p).1.selects,
      s.name = kv.1 ∧ s.value = kv.2) ∧
    (cacheThenLoad rt criteria p).1.items = (applyFiltersWith rt criteria p).1.items ∧
    ∃ text o, (cacheThenLoad rt criteria p).1.storage = some text ∧
      rt.jsonParse text = .entries o ∧ ∀ k, Obj.get o k = Obj.get criteria k := by
  have hget := getActiveFilters_restore_get criteria p.selects hnames hkeys hfk hsel hact hrest
  have hfi := filterItem_congr _ _ hget
  have hrun : cacheThenLoad rt criteria p =
      applyFiltersWith rt (getActiveFilters (criteria.foldl restoreStep p.selects))
        { p with storage := some (rt.jsonStringify criteria),
                 selects := criteria.foldl restoreStep p.selects } := by
    unfold cacheThenLoad loadCachedFilters cacheFilters
    simp only [if_neg hne, hparse]
    rfl
  rw [applyFiltersWith_thrown] at hdirect
  have hloop : (forEachItem (filterItem
      (getActiveFilters (criteria.foldl restoreStep p.selects))) p.items).2 = none := by
    rw [hfi]; exact hdirect
  rw [hrun]
  refine ⟨?_, ?_, ?_, ?_⟩
  · rw [applyFiltersWith_thrown]; exact hloop
  · intro kv hkv
    rw [applyFiltersWith_selects]
    simp only
    rw [restore_eq_map criteria hkeys p.selects hnames]
    obtain ⟨s, hs, hn, hopt⟩ := hsel kv hkv
    have hgetkv : Obj.get criteria s.name = some kv.2 := by
      rw [hn]; exact Obj.get_of_mem criteria hkeys kv.1 kv.2 hkv
    refine ⟨restoreOne criteria s, List.mem_map.mpr ⟨s, hs, rfl⟩, ?_, ?_⟩
    · rw [restoreOne_name, hn]
    · unfold restoreOne
      simp only [hgetkv]
      exact Select.assign_value s kv.2 hopt
  · rw [applyFiltersWith_items, applyFiltersWith_items, hfi]
  · exact ⟨_, _, applyFiltersWith_storage rt _ _ hloop, hparse', hget⟩

/-! ## Persistence cache: absent and malformed values -/

/-- C3, amended. When the value stored under `mr-filters` is absent or is not
well-formed JSON, `loadCachedFilters` leaves the page exactly as it was (no filter
control changes, `applyFilters` is not entered); it completes without an exception
exactly when the value is absent or the empty string, and for every other malformed
value the `SyntaxError` of `JSON.parse` leaves the function. -/
theorem loadCachedFilters_absent_or_malformed (rt : Runtime) (p : Page)
    (h : p.storage = none ∨
      ∃ cached, p.storage = some cached ∧ rt.jsonParse cached = Parsed.syntaxError) :
    (loadCachedFilters rt p).1 = p ∧
    ((loadCachedFilters rt p).2 = none ↔ (p.storage = none ∨ p.storage = some "")) ∧
    ((loadCachedFilters rt p).2 = some JsError.syntaxError ↔
      ∃ cached, p.storage = some cached ∧ cached ≠ "") := by
  unfold loadCachedFilters
  rcases h with h | ⟨cached, h, hparse⟩
  · rw [h]
    simp
  · rw [h]
    by_cases he : cached = ""
    · simp [he]
    · simp [he, hparse]

/-! ## Missing optional fields -/

theorem searchItem_undefined (rt : Runtime) (item : Item) :
    searchItem rt none item = .error JsError.typeError := by
  unfold searchItem
  cases item.title with
  | none => rfl
  | some t =>
    cases item.author with
    | none => rfl
    | some a => rfl

theorem performSearch_undefined (rt : Runtime) (p : Page) (h : p.items ≠ []) :
    performSearch rt none p = (p, some JsError.typeError) := by
  obtain ⟨sels, items, es, st, n⟩ := p
  cases items with
  | nil => exact absurd rfl h
  | cons a l =>
    simp [performSearch, forEachItem, searchItem_undefined]

theorem filterItem_throws_iff (filters : Obj) (item : Item) :
    filterItem filters item = .error JsError.typeError ↔
      item.author = none ∧ ∃ a, filters.get "author" = some a ∧ isActive a = true := by
  unfold filterItem applyAuthorFilter
  cases hg : Obj.get filters "author" with
  | none => simp
  | some a =>
    by_cases ha : isActive a = true
    · cases hau : item.author with
      | none => simp [ha]
      | some au => simp [ha]
    · simp [ha]

theorem searchItem_throws_iff (rt : Runtime) (query : Option String) (item : Item) :
    searchItem rt query item = .error JsError.typeError ↔
      item.title = none ∨ item.author = none ∨ query = none := by
  unfold searchItem
  cases item.title with
  | none => simp
  | some t =>
    cases item.author with
    | none => simp
    | some a =>
      cases query with
      | none => simp
      | some q => simp

/-! ## Notification presenter: the fallback -/

theorem notification_fallback (type : String)
    (hknown : type ∉ ["success", "error", "warning", "info"])
    (hproto : type ∉ objectPrototypeNames) :
    getNotificationIcon type = PropValue.str "info-circle" ∧
    getNotificationColor type = PropValue.str "#3b82f6" := by
  simp only [List.mem_cons, List.mem_singleton, not_or, List.not_mem_nil, or_false] at hknown
  obtain ⟨h1, h2, h3, h4⟩ := hknown
  simp [getNotificationIcon, getNotificationColor, lookupOr, Obj.get, Ne.symm h1, Ne.symm h2,
    Ne.symm h3, Ne.symm h4, hproto]

/-! ## Search and filters override each other -/

theorem performSearch_selects (rt : Runtime) (query : Option String) (p : Page) :
    (performSearch rt query p).1.selects = p.selects := by
  unfold performSearch
  dsimp only
  cases (forEachItem (searchItem rt query) p.items).2 with
  | some e => rfl
  | none => simp only [updateEmptyState_selects]

/-- Where every row has a title and an author element, search and filters override each
other: a search that follows a run of `applyFilters` completes and leaves every row
with the display given by the query and the row alone, whatever the filter selects
held; and a run of `applyFilters` that follows a search completes and leaves every row
with the display given by the filter selects and the row alone, whatever the query
was. -/
theorem search_and_filters_override (rt : Runtime) (p : Page)
    (h : ∀ item ∈ p.items, item.title ≠ none ∧ item.author ≠ none) :
    (∀ (q : String) (selects : List Select),
      (performSearch rt (some q) (applyFilters rt { p with selects := selects }).1).2 = none ∧
      (performSearch rt (some q) (applyFilters rt { p with selects := selects }).1).1.items =
        p.items.map (fun item =>
          item.setDisplay (if searchMatch rt q item then "block" else "none"))) ∧
    (∀ q : String,
      (applyFilters rt (performSearch rt (some q) p).1).2 = none ∧
      (applyFilters rt (performSearch rt (some q) p).1).1.items =
        p.items.map (fun item =>
          item.setDisplay (if shouldShowOf (getActiveFilters p.selects) item
              then "block" else "none"))) := by
  constructor
  · intro q selects
    have hf := applyFilters_complete rt { p with selects := selects } (fun item hm => (h item hm).2)
    have hitems : (applyFilters rt { p with selects := selects }).1.items =
        p.items.map (fun item =>
          item.setDisplay (if shouldShowOf (getActiveFilters selects) item
              then "block" else "none")) := by
      rw [hf]
      simp only [cacheFilters, updateEmptyState_items]
    have hwf : ∀ item ∈ (applyFilters rt { p with selects := selects }).1.items,
        item.title ≠ none ∧ item.author ≠ none := by
      rw [hitems]
      intro item hm
      obtain ⟨item0, hm0, rfl⟩ := List.mem_map.mp hm
      exact h item0 hm0
    rw [performSearch_complete rt q _ hwf]
    refine ⟨rfl, ?_⟩
    rw [updateEmptyState_items]
    simp only
    rw [hitems, List.map_map]
    apply List.map_congr_left
    intro item _
    show (item.setDisplay _).setDisplay _ = _
    rw [Item.setDisplay_setDisplay]
    rfl
  · intro q
    have hs := performSearch_complete rt q p h
    have hitems : (performSearch rt (some q) p).1.items =
        p.items.map (fun item =>
          item.setDisplay (if searchMatch rt q item then "block" else "none")) := by
      rw [hs, updateEmptyState_items]
    have hwf : ∀ item ∈ (performSearch rt (some q) p).1.items, item.author ≠ none := by
      rw [hitems]
      intro item hm
      obtain ⟨item0, hm0, rfl⟩ := List.mem_map.mp hm
      exact (h item0 hm0).2
    rw [applyFilters_complete rt _ hwf]
    refine ⟨rfl, ?_⟩
    simp only [cacheFilters, updateEmptyState_items]
    rw [hitems, List.map_map, performSearch_selects]
    apply List.map_congr_left
    intro item _
    show (item.setDisplay _).setDisplay _ = _
    rw [Item.setDisplay_setDisplay]
    rfl

/-! ## Action dispatcher -/

theorem drop_length_append {α : Type} (l l' : List α) : (l ++ l').drop l.length = l' := by
  induction l with
  | nil => rfl
  | cons a l ih => simp [ih]

/-! ## Notification presenter -/

/-- C8, evaluated. The four known kinds map to their icon and colour and the empty
string falls back to the `info` values, but `constructor` and `toString` do not: the
look-up `icons[type]` and `colors[type]` finds the member inherited from
`Object.prototype`, which is truthy, so the fallback `|| ...` is not taken. -/
theorem notification_lookup_reaches_prototype :
    (getNotificationIcon "success" = PropValue.str "check-circle" ∧
     getNotificationIcon "error" = PropValue.str "exclamation-circle" ∧
     getNotificationIcon "warning" = PropValue.str "exclamation-triangle" ∧
     getNotificationIcon "info" = PropValue.str "info-circle" ∧
     getNotificationColor "success" = PropValue.str "#10b981" ∧
     getNotificationColor "error" = PropValue.str "#ef4444" ∧
     getNotificationColor "warning" = PropValue.str "#f59e0b" ∧
     getNotificationColor "info" = PropValue.str "#3b82f6") ∧
    (getNotificationIcon "" = PropValue.str "info-circle" ∧
     getNotificationColor "" = PropValue.str "#3b82f6") ∧
    (getNotificationIcon "constructor" = PropValue.inherited "constructor" ∧
     getNotificationColor "constructor" = PropValue.inherited "constructor" ∧
     getNotificationIcon "toString" = PropValue.inherited "toString" ∧
     getNotificationColor "toString" = PropValue.inherited "toString" ∧
     getNotificationIcon "constructor" ≠ PropValue.str "info-circle" ∧
     getNotificationColor "toString" ≠ PropValue.str "#3b82f6") := by
  refine ⟨⟨?_, ?_, ?_, ?_, ?_, ?_, ?_, ?_⟩, ⟨?_, ?_⟩, ⟨?_, ?_, ?_, ?_, ?_, ?_⟩⟩ <;> decide


/-! ## Debounce -/

theorem inputEvent_eval (d : Debounced) (t : Nat) (v : String) :
    inputEvent d (t, v) = executedFunction 300 t (Receiver.searchInput v) (advance t d) := rfl

theorem advance_none (now : Nat) (d : Debounced)
    (h : ∀ t ∈ d.pending, ¬ t.2 ≤ now) : advance now d = d := by
  unfold advance
  cases hlen : d.pending.length with
  | zero => rfl
  | succ n =>
    simp only [runTimers]
    have : d.pending.find? (fun t => decide (t.2 ≤ now)) = none := by
      rw [List.find?_eq_none]
      intro t ht
      simpa using h t ht
    rw [this]

/-- The state of the closure once an `input` event at time `t` has been handled, when no
timer was due: a single live timer, due at `t + 300`. -/
theorem inputEvent_single (id t0 t : Nat) (v : String) (calls : List (Nat × Receiver))
    (h : t < t0 + 300) :
    inputEvent ⟨some id, id + 1, [(id, t0 + 300)], calls⟩ (t, v) =
      ⟨some (id + 1), id + 2, [(id + 1, t + 300)], calls⟩ := by
  rw [inputEvent_eval, advance_none]
  · simp [executedFunction, clearTimeout]
  · intro x hx
    simp only [List.mem_singleton] at hx
    subst hx
    simp only
    omega

theorem callsAfter_five (t1 t2 t3 t4 t5 : Nat) (v1 v2 v3 v4 v5 : String)
    (h12 : t1 ≤ t2) (h23 : t2 ≤ t3) (h34 : t3 ≤ t4) (h45 : t4 ≤ t5) (hwin : t5 < t1 + 300)
    (endTime : Nat) (hend : t5 + 300 ≤ endTime) :
    callsAfter [(t1, v1), (t2, v2), (t3, v3), (t4, v4), (t5, v5)] endTime =
      [(t5 + 300, Receiver.globalObject)] := by
  unfold callsAfter
  simp only [List.foldl_cons, List.foldl_nil]
  have h1 : inputEvent ⟨none, 0, [], []⟩ (t1, v1) = ⟨some 0, 0 + 1, [(0, t1 + 300)], []⟩ := by
    rw [inputEvent_eval, advance_none]
    · simp [executedFunction, clearTimeout]
    · intro x hx; cases hx
  rw [h1, inputEvent_single 0 t1 t2 v2 [] (by omega),
    inputEvent_single 1 t2 t3 v3 [] (by omega),
    inputEvent_single 2 t3 t4 v4 [] (by omega),
    inputEvent_single 3 t4 t5 v5 [] (by omega)]
  simp [advance, runTimers, later, clearTimeout, hend]

/-- C6, evaluated. Five keystrokes within 200 ms lead to exactly one call of the
debounced function, 300 ms after the last keystroke, but that call receives the global
object as `this`, not the search box: `this.value` is `undefined` instead of the text
`alice`, and on a page with rows `performSearch(undefined)` throws at the first row and
leaves the page as it was. -/
theorem debounced_search_loses_receiver :
    callsAfter fiveKeystrokes 1000 = [(500, Receiver.globalObject)] ∧
    Receiver.value Receiver.globalObject = none ∧
    Receiver.value (Receiver.searchInput "alice") = some "alice" ∧
    searchListener sampleRuntime Receiver.globalObject plainPage =
      (plainPage, some JsError.typeError) ∧
    (searchListener sampleRuntime (Receiver.searchInput "alice")
      plainPage).1.items.map (·.display) = ["block", "none"] := by
  refine ⟨?_, rfl, rfl, ?_, ?_⟩
  · exact callsAfter_five 0 50 100 150 200 "a" "al" "ali" "alic" "alice"
      (by decide) (by decide) (by decide) (by decide) (by decide) 1000 (by decide)
  · exact performSearch_undefined sampleRuntime _ (by decide)
  · decide

/-! ## Worked inputs of the theorems -/

/-- C1, the claim as stated fails. The status select holds the empty value, which is
not `all`, and the row's `data-status` is `open`, so the row does not satisfy every
criterion whose value is not `all`; `applyFilters` nevertheless sets its display to
`block`. -/
theorem applyFilters_ignores_empty_criterion :
    (applyFilters sampleRuntime emptyValuePage).1.items.map (·.display) =
      ["block"] ∧
    ¬ MeetsNotAll emptyValuePage.selects aliceRow := by
  refine ⟨by decide, ?_⟩
  intro h
  have hs := (h anyStatusSelect (List.mem_cons_self _ _) (by decide)).2.1 rfl
  revert hs
  decide

/-- C1, amended, on the two rows of the specification: with the status select on
`open` only the first row stays visible. -/
theorem applyFilters_display_iff_witness :
    (openPage.selects.map (·.name)).Nodup ∧
    (∀ item ∈ openPage.items, item.author ≠ none) ∧
    ((applyFilters sampleRuntime openPage).2 = none ∧
      List.Forall₂ (fun item item' => SameRow item item' ∧
          (item'.display = "block" ↔
            MeetsActive openPage.selects item) ∧
          (item'.display = "none" ↔
            ¬ MeetsActive openPage.selects item))
        openPage.items
        (applyFilters sampleRuntime openPage).1.items) ∧
    (applyFilters sampleRuntime
      openPage).1.items.map (·.display) =
        ["block", "none"] :=
  ⟨by decide, by decide,
    applyFilters_display_iff sampleRuntime openPage
      (by decide) (by decide),
    by decide⟩

/-- C2 on the query `ALICE`: the row whose author is `alice` is shown, the other row is
hidden. -/
theorem performSearch_display_iff_witness :
    sampleRuntime.toLowerCase "" = "" ∧
    (∀ item ∈ plainPage.items, item.title ≠ none ∧ item.author ≠ none) ∧
    ((performSearch sampleRuntime (some "ALICE") plainPage).2 = none ∧
      List.Forall₂ (fun item item' => SameRow item item' ∧
          (item'.display = "block" ↔ SearchHit sampleRuntime "ALICE" item) ∧
          (item'.display = "none" ↔ ¬ SearchHit sampleRuntime "ALICE" item))
        plainPage.items
        (performSearch sampleRuntime (some "ALICE") plainPage).1.items) ∧
    (performSearch sampleRuntime (some "ALICE")
      plainPage).1.items.map (·.display) = ["block", "none"] :=
  ⟨by decide, by decide,
    performSearch_display_iff sampleRuntime (by decide) "ALICE" plainPage
      (by decide),
    by decide⟩

/-- C3, the claim as stated fails. The cached text is a lone opening brace, which is
not well-formed JSON, and `loadCachedFilters` raises the `SyntaxError` of `JSON.parse`
instead of completing. -/
theorem loadCachedFilters_raises_on_malformed :
    (∃ cached, brokenCachePage.storage = some cached ∧
      sampleRuntime.jsonParse cached = Parsed.syntaxError) ∧
    (loadCachedFilters sampleRuntime brokenCachePage).2 = some JsError.syntaxError ∧
    (loadCachedFilters sampleRuntime brokenCachePage).2 ≠ none :=
  ⟨⟨"\x7b", rfl, by decide⟩, by decide, by decide⟩

/-- C3, amended, on the page whose cache is a lone opening brace. -/
theorem loadCachedFilters_absent_or_malformed_witness :
    (brokenCachePage.storage = none ∨
      ∃ cached, brokenCachePage.storage = some cached ∧
        sampleRuntime.jsonParse cached = Parsed.syntaxError) ∧
    ((loadCachedFilters sampleRuntime brokenCachePage).1 = brokenCachePage ∧
      ((loadCachedFilters sampleRuntime brokenCachePage).2 = none ↔
        (brokenCachePage.storage = none ∨ brokenCachePage.storage = some "")) ∧
      ((loadCachedFilters sampleRuntime brokenCachePage).2 = some JsError.syntaxError ↔
        ∃ cached, brokenCachePage.storage = some cached ∧ cached ≠ "")) :=
  ⟨Or.inr ⟨"\x7b", rfl, by decide⟩,
    loadCachedFilters_absent_or_malformed sampleRuntime brokenCachePage
      (Or.inr ⟨"\x7b", rfl, by decide⟩)⟩

/-- C4, evaluated. With the author filter on `alice`, `applyFilters` throws a
`TypeError` at a row without an `.mr-author` element and leaves its display untouched;
`performSearch` throws at a row without an `.mr-author` or without an `.mr-title`
element. Only the missing `data-status` attribute is a plain non-match: that row is
hidden without an exception. -/
theorem missing_element_throws :
    applyFilters sampleRuntime (pageOf [authorSelect "alice"] [rowWithoutAuthor, bobRow]) =
      ({ pageOf [authorSelect "alice"] [rowWithoutAuthor, bobRow] with filterRuns := 1 },
        some JsError.typeError) ∧
    performSearch sampleRuntime (some "alice") (pageOf [] [rowWithoutAuthor, bobRow]) =
      (pageOf [] [rowWithoutAuthor, bobRow], some JsError.typeError) ∧
    performSearch sampleRuntime (some "alice") (pageOf [] [rowWithoutTitle, bobRow]) =
      (pageOf [] [rowWithoutTitle, bobRow], some JsError.typeError) ∧
    (applyFilters sampleRuntime (pageOf [statusSelect "open"] [rowWithoutStatus])).2 = none ∧
    (applyFilters sampleRuntime
      (pageOf [statusSelect "open"] [rowWithoutStatus])).1.items.map (·.display) = ["none"] := by
  refine ⟨?_, ?_, ?_, ?_, ?_⟩ <;> decide

/-- C5, the claim as stated fails, in two ways. First, the criteria `{status: "all"}` name
the status select and `all` is one of its options, yet after `cacheFilters` and
`loadCachedFilters` the stored text is that of the empty object, which has no value
under `status`. Second, with the criteria `{status: "open"}` on a page whose author
select holds `bob`, the round trip hides the open row of alice, which the direct run of
`applyFilters` on the same criteria shows. -/
theorem cacheThenLoad_loses_criteria :
    ((∀ kv ∈ allCriteria, ∃ s ∈ allStatusPage.selects,
        s.name = kv.1 ∧ kv.2 ∈ s.options) ∧
      (cacheThenLoad sampleRuntime allCriteria
        allStatusPage).1.storage = some "\x7b\x7d" ∧
      sampleRuntime.jsonParse "\x7b\x7d" = Parsed.entries [] ∧
      Obj.get [] "status" = none ∧
      Obj.get allCriteria "status" = some "all") ∧
    ((∀ kv ∈ openCriteria,
        ∃ s ∈ bobChosenPage.selects,
          s.name = kv.1 ∧ kv.2 ∈ s.options) ∧
      (cacheThenLoad sampleRuntime openCriteria
        bobChosenPage).1.items.map
          (·.display) = ["none", "none"] ∧
      (applyFiltersWith sampleRuntime openCriteria
        bobChosenPage).1.items.map
          (·.display) = ["block", "none"]) := by
  refine ⟨⟨?_, ?_, ?_, ?_, ?_⟩, ⟨?_, ?_, ?_⟩⟩ <;> decide

/-- C5, amended, on the witness of the specification: `cacheFilters({status: "open"})`
followed by `loadCachedFilters()` puts `open` back into the status select and leaves
the rows as the direct run does. -/
theorem cacheThenLoad_round_trip_witness :
    ((restingPage.selects.map
        (·.name)).Nodup ∧
      (openCriteria.map (·.1)).Nodup ∧
      (∀ kv ∈ openCriteria, kv.1 ∈ filterKeys) ∧
      (∀ kv ∈ openCriteria,
        ∃ s ∈ restingPage.selects,
          s.name = kv.1 ∧ kv.2 ∈ s.options) ∧
      (∀ kv ∈ openCriteria, isActive kv.2 = true) ∧
      (∀ s ∈ restingPage.selects,
        (∀ kv ∈ openCriteria, kv.1 ≠ s.name) → isActive s.value = false) ∧
      sampleRuntime.jsonStringify openCriteria ≠ "" ∧
      sampleRuntime.jsonParse (sampleRuntime.jsonStringify openCriteria) =
        Parsed.entries openCriteria ∧
      sampleRuntime.jsonParse (sampleRuntime.jsonStringify
          (getActiveFilters (openCriteria.foldl restoreStep restingPage.selects))) =
        Parsed.entries (getActiveFilters (openCriteria.foldl restoreStep restingPage.selects)) ∧
      (applyFiltersWith sampleRuntime openCriteria restingPage).2 = none) ∧
    ((cacheThenLoad sampleRuntime openCriteria
        restingPage).2 = none ∧
      (∀ kv ∈ openCriteria,
        ∃ s ∈ (cacheThenLoad sampleRuntime openCriteria
            restingPage).1.selects,
          s.name = kv.1 ∧ s.value = kv.2) ∧
      (cacheThenLoad sampleRuntime openCriteria
        restingPage).1.items =
        (applyFiltersWith sampleRuntime openCriteria
          restingPage).1.items ∧
      ∃ text o, (cacheThenLoad sampleRuntime openCriteria
          restingPage).1.storage =
            some text ∧
        sampleRuntime.jsonParse text = Parsed.entries o ∧
        ∀ k, Obj.get o k = Obj.get openCriteria k) ∧
    (cacheThenLoad sampleRuntime openCriteria
      restingPage).1.selects =
        [statusSelect "open", authorSelect "all"] :=
  ⟨⟨by decide, by decide, by decide, by decide, by decide, by decide, by decide, by decide,
      by decide, by decide⟩,
    cacheThenLoad_round_trip sampleRuntime openCriteria
      restingPage
      (by decide) (by decide) (by decide) (by decide) (by decide) (by decide) (by decide)
      (by decide) (by decide) (by decide),
    by decide⟩

/-- The empty-state element on the two rows, which carry no inline declaration: hidden
after the status filter `open`, shown after a search that matches no row. -/
theorem emptyState_iff_no_visible_witness :
    openPage.emptyState = some "none" ∧
    (∀ item ∈ openPage.items, PlainStyle item) ∧
    (((applyFilters sampleRuntime openPage).2 = none →
      (((applyFilters sampleRuntime
            openPage).1.emptyState = some "block" ↔
          ∀ item ∈ (applyFilters sampleRuntime
            openPage).1.items, item.display ≠ "block") ∧
       ((applyFilters sampleRuntime
            openPage).1.emptyState = some "none" ↔
          ∃ item ∈ (applyFilters sampleRuntime
            openPage).1.items, item.display = "block"))) ∧
    ((performSearch sampleRuntime (some "zebra")
        openPage).2 = none →
      (((performSearch sampleRuntime (some "zebra")
            openPage).1.emptyState = some "block" ↔
          ∀ item ∈ (performSearch sampleRuntime (some "zebra")
            openPage).1.items, item.display ≠ "block") ∧
       ((performSearch sampleRuntime (some "zebra")
            openPage).1.emptyState = some "none" ↔
          ∃ item ∈ (performSearch sampleRuntime (some "zebra")
            openPage).1.items,
              item.display = "block")))) ∧
    (applyFilters sampleRuntime openPage).2 = none ∧
    (applyFilters sampleRuntime
      openPage).1.emptyState = some "none" ∧
    (performSearch sampleRuntime (some "zebra")
      openPage).2 = none ∧
    (performSearch sampleRuntime (some "zebra")
      openPage).1.emptyState = some "block" :=
  ⟨rfl, by decide,
    emptyState_iff_no_visible sampleRuntime (some "zebra")
      openPage "none" rfl (by decide),
    by decide, by decide, by decide, by decide⟩

/-- Search after filters on the two rows: with the status select on `closed` the row of
alice is hidden by `applyFilters`; the search for `alice` that follows shows it again
and hides the row of bob, as it does whatever the select holds. -/
theorem search_and_filters_override_witness :
    (∀ item ∈ closedPage.items,
      item.title ≠ none ∧ item.author ≠ none) ∧
    ((performSearch sampleRuntime (some "alice")
        (applyFilters sampleRuntime { closedPage with
          selects := [statusSelect "closed"] }).1).2 = none ∧
      (performSearch sampleRuntime (some "alice")
        (applyFilters sampleRuntime { closedPage with
          selects := [statusSelect "closed"] }).1).1.items =
        closedPage.items.map (fun item =>
          item.setDisplay (if searchMatch sampleRuntime "alice" item
              then "block" else "none"))) ∧
    ((applyFilters sampleRuntime (performSearch sampleRuntime (some "alice")
        closedPage).1).2 = none ∧
      (applyFilters sampleRuntime (performSearch sampleRuntime (some "alice")
        closedPage).1).1.items =
        closedPage.items.map (fun item =>
          item.setDisplay (if shouldShowOf (getActiveFilters closedPage.selects) item
              then "block" else "none"))) ∧
    (applyFilters sampleRuntime
      closedPage).1.items.map (·.display) =
        ["none", "block"] ∧
    (performSearch sampleRuntime (some "alice")
      (applyFilters sampleRuntime
        closedPage).1).1.items.map (·.display) =
        ["block", "none"] :=
  ⟨by decide,
    (search_and_filters_override sampleRuntime closedPage
      (by decide)).1 "alice" [statusSelect "closed"],
    (search_and_filters_override sampleRuntime closedPage
      (by decide)).2 "alice",
    by decide, by decide⟩

/-! ## Action dispatcher: exceptions of the notification -/

theorem showNotification_keeps (rt : Runtime) (message type : String) (ui : Ui)
    (h : KeepsButton rt message type) :
    showNotification rt message type ui =
      ({ notifications := ui.notifications ++
          [{ message := message, type := type, icon := getNotificationIcon type,
             color := getNotificationColor type }],
         timers := ui.timers ++
          [(5000, TimerTask.removeNotification ui.notifications.length)] }, none) := by
  unfold KeepsButton at h
  simp [showNotification, h]

/-- For an MR id and a message whose notifications keep their close button, `approveMR`
after a confirmed dialog meets the dispatch contract and no exception escapes. -/
theorem approveMR_contract (rt : Runtime) (mrId m : String) (ui : Ui)
    (hp : KeepsButton rt ("Approving MR #" ++ mrId ++ "...") "info")
    (hs : KeepsButton rt ("MR #" ++ mrId ++ " approved successfully!") "success")
    (he : KeepsButton rt ("Error: " ++ m) "error") :
    DispatchContract ui (approveMR rt mrId true (FetchResult.data true m) ui).1
      (approveMR rt mrId true (FetchResult.data false m) ui).1 m ∧
    (approveMR rt mrId true (FetchResult.data true m) ui).2 = none ∧
    (approveMR rt mrId true (FetchResult.data false m) ui).2 = none := by
  simp only [approveMR, if_true, showNotification_keeps _ _ _ _ hp,
    showNotification_keeps _ _ _ _ hs, showNotification_keeps _ _ _ _ he, DispatchContract,
    shownBy, scheduledBy, List.append_assoc, drop_length_append, Bool.false_eq_true, if_false]
  refine ⟨⟨by simp [ofKind], by simp [reloads], ⟨_, by simp [ofKind]; rfl, ?_⟩,
    by simp [reloads]⟩, trivial, trivial⟩
  exact includes_append_right "Error: " m

/-- Likewise for `mergeMR`. -/
theorem mergeMR_contract (rt : Runtime) (mrId m : String) (ui : Ui)
    (hp : KeepsButton rt ("Merging MR #" ++ mrId ++ "...") "info")
    (hs : KeepsButton rt ("MR #" ++ mrId ++ " merged successfully!") "success")
    (he : KeepsButton rt ("Error: " ++ m) "error") :
    DispatchContract ui (mergeMR rt mrId true (FetchResult.data true m) ui).1
      (mergeMR rt mrId true (FetchResult.data false m) ui).1 m ∧
    (mergeMR rt mrId true (FetchResult.data true m) ui).2 = none ∧
    (mergeMR rt mrId true (FetchResult.data false m) ui).2 = none := by
  simp only [mergeMR, if_true, showNotification_keeps _ _ _ _ hp,
    showNotification_keeps _ _ _ _ hs, showNotification_keeps _ _ _ _ he, DispatchContract,
    shownBy, scheduledBy, List.append_assoc, drop_length_append, Bool.false_eq_true, if_false]
  refine ⟨⟨by simp [ofKind], by simp [reloads], ⟨_, by simp [ofKind]; rfl, ?_⟩,
    by simp [reloads]⟩, trivial, trivial⟩
  exact includes_append_right "Error: " m

/-- Likewise for `closeMR`. -/
theorem closeMR_contract (rt : Runtime) (mrId m : String) (ui : Ui)
    (hp : KeepsButton rt ("Closing MR #" ++ mrId ++ "...") "info")
    (hs : KeepsButton rt ("MR #" ++ mrId ++ " closed successfully!") "success")
    (he : KeepsButton rt ("Error: " ++ m) "error") :
    DispatchContract ui (closeMR rt mrId true (FetchResult.data true m) ui).1
      (closeMR rt mrId true (FetchResult.data false m) ui).1 m ∧
    (closeMR rt mrId true (FetchResult.data true m) ui).2 = none ∧
    (closeMR rt mrId true (FetchResult.data false m) ui).2 = none := by
  simp only [closeMR, if_true, showNotification_keeps _ _ _ _ hp,
    showNotification_keeps _ _ _ _ hs, showNotification_keeps _ _ _ _ he, DispatchContract,
    shownBy, scheduledBy, List.append_assoc, drop_length_append, Bool.false_eq_true, if_false]
  refine ⟨⟨by simp [ofKind], by simp [reloads], ⟨_, by simp [ofKind]; rfl, ?_⟩,
    by simp [reloads]⟩, trivial, trivial⟩
  exact includes_append_right "Error: " m

/-- C7, evaluated. The response `{success: false, message: "<!--"}` makes each of
`approveMR`, `mergeMR` and `closeMR` show two notifications of kind `error`, not one:
the message is interpolated unescaped, the comment it opens takes the close button, the
unguarded `querySelector('.notification-close').addEventListener` throws after the
notification is appended, and the `catch` callback shows a second one. With the MR id
`<!--` the in-progress notification throws before the request is made, so a successful
response is followed by no `success` notification and no reload. A response with a
plain message meets the contract. -/
theorem action_shows_two_errors_on_markup :
    ((ofKind "error" (shownBy emptyUi
        (approveMR sampleRuntime "7" true (FetchResult.data false "<!--") emptyUi).1)).map
          (·.message) = ["Error: <!--", "Error approving MR: " ++ nullAccessMessage] ∧
     (ofKind "error" (shownBy emptyUi
        (mergeMR sampleRuntime "7" true (FetchResult.data false "<!--") emptyUi).1)).map
          (·.message) = ["Error: <!--", "Error merging MR: " ++ nullAccessMessage] ∧
     (ofKind "error" (shownBy emptyUi
        (closeMR sampleRuntime "7" true (FetchResult.data false "<!--") emptyUi).1)).map
          (·.message) = ["Error: <!--", "Error closing MR: " ++ nullAccessMessage]) ∧
    ((approveMR sampleRuntime "<!--" true (FetchResult.data true "") emptyUi).2 =
        some JsError.typeError ∧
     ofKind "success" (shownBy emptyUi
        (approveMR sampleRuntime "<!--" true (FetchResult.data true "") emptyUi).1) = [] ∧
     reloads (scheduledBy emptyUi
        (approveMR sampleRuntime "<!--" true (FetchResult.data true "") emptyUi).1) = []) ∧
    ((ofKind "error" (shownBy emptyUi
        (approveMR sampleRuntime "7" true (FetchResult.data false "denied") emptyUi).1)).map
          (·.message) = ["Error: denied"] ∧
     (ofKind "success" (shownBy emptyUi
        (approveMR sampleRuntime "7" true (FetchResult.data true "") emptyUi).1)).map
          (·.message) = ["MR #7 approved successfully!"] ∧
     reloads (scheduledBy emptyUi
        (approveMR sampleRuntime "7" true (FetchResult.data true "") emptyUi).1) =
          [(1000, TimerTask.reload)]) := by
  refine ⟨⟨?_, ?_, ?_⟩, ⟨?_, ?_, ?_⟩, ⟨?_, ?_, ?_⟩⟩ <;> decide

/-- C9, evaluated. A closed row that carries the inline declaration `margin-block: 4px` is
hidden by `applyFilters` under the status filter `open`; its style attribute then
reads `margin-block: 4px; display: none;`, which contains `block`, so the selector of
`updateEmptyState` counts it as visible and the empty-state element, shown before, is
set to `none` although no row has display `block`. A search that matches nothing does
the same. -/
theorem emptyState_hidden_without_visible_row :
    ((applyFilters sampleRuntime spacedPage).2 = none ∧
     (applyFilters sampleRuntime spacedPage).1.items.map (·.display) = ["none"] ∧
     (applyFilters sampleRuntime spacedPage).1.items.map styleAttr =
        ["margin-block: 4px; display: none;"] ∧
     (applyFilters sampleRuntime spacedPage).1.items.map matchesVisibleSelector = [true] ∧
     (applyFilters sampleRuntime spacedPage).1.emptyState = some "none") ∧
    ((performSearch sampleRuntime (some "zebra") spacedPage).2 = none ∧
     (performSearch sampleRuntime (some "zebra") spacedPage).1.items.map (·.display) =
        ["none"] ∧
     (performSearch sampleRuntime (some "zebra") spacedPage).1.emptyState = some "none") := by
  refine ⟨⟨?_, ?_, ?_, ?_, ?_⟩, ⟨?_, ?_, ?_⟩⟩ <;> decide

/-- C10, evaluated. On the rows of alice and bob followed by a row without an
`.mr-author` element, the search for `alice` throws at the third row and leaves it as
the filters left it: hidden after the status filter `closed`, shown after the status
filter `open`. The visibility after the search therefore depends on the state of the
filter selects. -/
theorem search_keeps_filter_state_after_throw :
    (performSearch sampleRuntime (some "alice")
      (applyFilters sampleRuntime (mixedPage "closed")).1).2 = some JsError.typeError ∧
    (performSearch sampleRuntime (some "alice")
      (applyFilters sampleRuntime (mixedPage "open")).1).2 = some JsError.typeError ∧
    (applyFilters sampleRuntime (mixedPage "closed")).1.items.map (·.display) =
      ["none", "block", "none"] ∧
    (applyFilters sampleRuntime (mixedPage "open")).1.items.map (·.display) =
      ["block", "none", "block"] ∧
    (performSearch sampleRuntime (some "alice")
      (applyFilters sampleRuntime (mixedPage "closed")).1).1.items.map (·.display) =
        ["block", "none", "none"] ∧
    (performSearch sampleRuntime (some "alice")
      (applyFilters sampleRuntime (mixedPage "open")).1).1.items.map (·.display) =
        ["block", "none", "block"] := by
  refine ⟨?_, ?_, ?_, ?_, ?_, ?_⟩ <;> decide

end MrManager
